import Mathlib

/-!
Verification of the kanban-clippy AI service layer (`src/services/ai.ts`,
cache-enabled variant) and the cluster-cache staleness check in
`src/components/Dialogs/ClusterDialog.tsx`.

The definitions below are a shallow embedding of the TypeScript source:
pure helpers become Lean functions, the stateful `generateClusters` /
`checkForDuplicates` wrappers become explicit state-passing functions over
a cache-state record, and the network (`fetch`) is an explicit oracle
argument.  JavaScript numbers used as timestamps are modelled as `Nat`
(millisecond clocks are non-negative in practice); the exact-rational
model is used for the one floating-point division in the staleness check
(documented at its definition).
-/

set_option maxRecDepth 100000

namespace KanbanAI

/-- MAX_BATCH_SIZE from ai.ts: maximum number of cards per request. -/
def MAX_BATCH_SIZE : Nat := 50

/-- CACHE_TTL from ai.ts (cache-enabled variant): two weeks in milliseconds. -/
def CACHE_TTL : Nat := 14 * 24 * 60 * 60 * 1000

/-- chunkArray from ai.ts:
`Array.from({length: Math.ceil(array.length / chunkSize)}, (_, i) => array.slice(i*chunkSize, (i+1)*chunkSize))`.
For `chunkSize > 0`, `Math.ceil(n / s) = (n + s - 1) / s` in natural division,
and `slice(a, b)` is `(drop a).take (b - a)`. -/
def chunkArray (array : List α) (chunkSize : Nat) : List (List α) :=
  (List.range ((array.length + chunkSize - 1) / chunkSize)).map
    (fun i => (array.drop (i * chunkSize)).take chunkSize)

/-- Number of chunks produced: exactly `ceil (length / chunkSize)`. -/
theorem chunkArray_length (array : List α) (chunkSize : Nat) :
    (chunkArray array chunkSize).length = (array.length + chunkSize - 1) / chunkSize := by
  simp [chunkArray]

/-- Each produced chunk is the contiguous slice starting at `i * chunkSize`. -/
theorem chunkArray_getElem (array : List α) (chunkSize : Nat) (i : Nat)
    (h : i < (chunkArray array chunkSize).length) :
    (chunkArray array chunkSize)[i] = (array.drop (i * chunkSize)).take chunkSize := by
  simp [chunkArray]

theorem ceil_div_pos_eq_one {n B : Nat} (hB : 0 < B) (hn : 0 < n) (hle : n ≤ B) :
    (n + B - 1) / B = 1 := by
  have h1 : 1 ≤ (n + B - 1) / B := by
    rw [Nat.le_div_iff_mul_le hB]; omega
  have h2 : (n + B - 1) / B < 2 := by
    rw [Nat.div_lt_iff_lt_mul hB]; omega
  omega

theorem ceil_div_succ {n B : Nat} (hB : 0 < B) (hlt : B < n) :
    (n + B - 1) / B = (n - B + B - 1) / B + 1 := by
  have h1 : n + B - 1 = (n - B + B - 1) + B := by omega
  rw [h1, Nat.add_div_right _ hB]

/-- Unfolding lemma: on a nonempty list, `chunkArray` produces the first
`chunkSize`-slice followed by the chunks of the remainder. -/
theorem chunkArray_cons (array : List α) (chunkSize : Nat) (hB : 0 < chunkSize)
    (hne : array ≠ []) :
    chunkArray array chunkSize =
      array.take chunkSize :: chunkArray (array.drop chunkSize) chunkSize := by
  have hn : 0 < array.length := List.length_pos.mpr hne
  have hcount : (array.length + chunkSize - 1) / chunkSize =
      ((array.drop chunkSize).length + chunkSize - 1) / chunkSize + 1 := by
    by_cases hle : array.length ≤ chunkSize
    · have hdrop : (array.drop chunkSize).length = 0 := by simp; omega
      rw [hdrop, ceil_div_pos_eq_one hB hn hle]
      simp [Nat.div_eq_of_lt (by omega : chunkSize - 1 < chunkSize)]
    · have hdrop : (array.drop chunkSize).length = array.length - chunkSize := by simp
      rw [hdrop, ← ceil_div_succ hB (by omega)]
  unfold chunkArray
  rw [hcount, List.range_succ_eq_map, List.map_cons, List.map_map]
  congr 1
  · simp
  · apply List.map_congr_left
    intro i _
    simp only [Function.comp_apply]
    rw [List.drop_drop]
    congr 2
    rw [Nat.succ_mul]
    omega

/-- Concatenating the chunks in order reproduces the original list. -/
theorem chunkArray_flatten (B : Nat) (hB : 0 < B) :
    ∀ (n : Nat) (array : List α), array.length ≤ n →
      (chunkArray array B).flatten = array := by
  intro n
  induction n with
  | zero =>
    intro array h
    have : array = [] := List.eq_nil_of_length_eq_zero (by omega)
    subst this
    simp [chunkArray]
  | succ m ih =>
    intro array h
    by_cases hne : array = []
    · subst hne; simp [chunkArray]
    · rw [chunkArray_cons array B hB hne]
      have hlen : (array.drop B).length ≤ m := by
        have : 0 < array.length := List.length_pos.mpr hne
        simp; omega
      rw [List.flatten_cons, ih (array.drop B) hlen, List.take_append_drop]

/-- C2: for every card list and every batch size `B > 0`, `chunkArray`
produces `ceil (N / B)` contiguous slices (each chunk `i` is the slice
starting at `i * B`), and concatenating the chunks in order reproduces
the original list exactly. -/
theorem batching_completeness (array : List α) (B : Nat) (hB : 0 < B) :
    (chunkArray array B).length = (array.length + B - 1) / B ∧
    (∀ i (h : i < (chunkArray array B).length),
      (chunkArray array B)[i] = (array.drop (i * B)).take B) ∧
    (chunkArray array B).flatten = array :=
  ⟨chunkArray_length array B,
   fun i h => chunkArray_getElem array B i h,
   chunkArray_flatten B hB array.length array (Nat.le_refl _)⟩

/-- Witness for C2 at a concrete input: 5 elements in batches of 2 give
3 chunks which concatenate back to the input. -/
theorem batching_completeness_witness :
    (0 < 2) ∧
    ((chunkArray [10, 20, 30, 40, 50] 2).length = (5 + 2 - 1) / 2 ∧
    (∀ i (h : i < (chunkArray [10, 20, 30, 40, 50] 2).length),
      (chunkArray [10, 20, 30, 40, 50] 2)[i] = (([10, 20, 30, 40, 50].drop (i * 2)).take 2)) ∧
    (chunkArray [10, 20, 30, 40, 50] 2).flatten = [10, 20, 30, 40, 50]) :=
  ⟨by decide, batching_completeness [10, 20, 30, 40, 50] 2 (by decide)⟩

/-- A card object inside a collaborator-returned cluster.  The final
mapping in generateClusters filters `card.id !== undefined`, so ids of
cluster cards are optional; `title` stands for the rest of the card
payload carried along verbatim. -/
structure ClusterCard where
  id : Option String
  title : Option String
deriving DecidableEq, Repr

/-- A cluster as returned by the clustering collaborator and accumulated
by generateClusters: the merge loop reads `clusterName` (required there),
`title` (optional) and `cards`. -/
structure Cluster where
  clusterName : String
  title : Option String
  cards : List ClusterCard
deriving DecidableEq, Repr

/-- String.prototype.toLowerCase, restricted to the ASCII case mapping
(the cluster names in the spec are ASCII).  Defined structurally over the
character list so that concrete instances reduce inside the kernel. -/
def jsToLower (s : String) : String := ⟨s.data.map Char.toLower⟩

/-- The findIndex predicate of the merge loop in generateClusters:
`(c.clusterName && c.clusterName.toLowerCase() === key) || (c.title && c.title.toLowerCase() === key)`
where `key` is `newCluster.clusterName.toLowerCase()`.  A JS string is
falsy exactly when it is empty; an absent title fails the second guard. -/
def matchesName (clusterName : String) (title : Option String) (key : String) : Bool :=
  (clusterName != "" && jsToLower clusterName == key) ||
  (match title with
   | some t => t != "" && jsToLower t == key
   | none => false)

/-- Helper for the duplicate-removal filter: walk the list keeping a card
exactly when its id has not been seen before. -/
def dedupByIdAux (seen : List (Option String)) : List ClusterCard → List ClusterCard
  | [] => []
  | c :: rest =>
    if c.id ∈ seen then dedupByIdAux seen rest
    else c :: dedupByIdAux (c.id :: seen) rest

/-- The duplicate removal in the merge loop:
`mergedCards.filter((card, index, self) => index === self.findIndex(c => c.id === card.id))`,
i.e. keep the first occurrence of every card id (JS `undefined === undefined`,
so id-less cards deduplicate against each other). -/
def dedupById (cards : List ClusterCard) : List ClusterCard :=
  dedupByIdAux [] cards

/-- One iteration of `for (const newCluster of result.clusters)` in the
merge branch of generateClusters: `findIndex` of the first accumulator
cluster matching the new cluster's lower-cased name; on a hit, replace
that cluster's card list by the id-deduplicated concatenation (the
source's `set` at the found index); otherwise `push` the new cluster.
The findIndex/set pair is rendered as replace-first-match recursion. -/
def mergeOne : List Cluster → Cluster → List Cluster
  | [], newCluster => [newCluster]
  | c :: rest, newCluster =>
    if matchesName c.clusterName c.title (jsToLower newCluster.clusterName) then
      { c with cards := dedupById (c.cards ++ newCluster.cards) } :: rest
    else
      c :: mergeOne rest newCluster

/-- Merging one batch result into the accumulator: the inner `for` loop
over `result.clusters` for a batch with index `i > 0`. -/
def mergeBatch (acc : List Cluster) (clusters : List Cluster) : List Cluster :=
  clusters.foldl mergeOne acc

/-- Handling of one batch response inside the loop of generateClusters:
`if (result.clusters && Array.isArray(result.clusters))` — an absent or
non-array `clusters` field (`none` here) is skipped; the batch at index 0
replaces the accumulator verbatim; later batches are merged. -/
def processBatchResult (i : Nat) (acc : List Cluster) (clusters : Option (List Cluster)) :
    List Cluster :=
  match clusters with
  | none => acc
  | some cs => if i == 0 then cs else mergeBatch acc cs

/-- The sequential batch loop of generateClusters, restricted to its merge
behaviour: fold the per-batch collaborator results into the accumulator
in batch order starting at index `i`. -/
def accumulateBatchesFrom (i : Nat) (acc : List Cluster) :
    List (Option (List Cluster)) → List Cluster
  | [] => acc
  | r :: rest => accumulateBatchesFrom (i + 1) (processBatchResult i acc r) rest

/-- The accumulated cluster list over a full sequence of per-batch
collaborator results (batch indices 0, 1, ...). -/
def accumulateBatches (results : List (Option (List Cluster))) : List Cluster :=
  accumulateBatchesFrom 0 [] results

/-- The consistency-normalised cluster shape produced at the end of the
batched branch of generateClusters. -/
structure FinalCluster where
  clusterName : String
  id : String
  title : String
  description : String
  cards : List ClusterCard
  cardIds : List String
  createdAt : Nat
deriving DecidableEq, Repr

/-- The final `accumulatedClusters.map(cluster => ({...cluster, id: cluster.clusterName, ...}))`
normalisation in generateClusters. -/
def finalizeCluster (now : Nat) (cluster : Cluster) : FinalCluster :=
  { clusterName := cluster.clusterName
    id := cluster.clusterName
    title := cluster.clusterName
    description := "Cluster of cards related to " ++ cluster.clusterName
    cards := cluster.cards
    cardIds := cluster.cards.filterMap (fun card => card.id)
    createdAt := now }

/-- The card ids of a card list, in order. -/
def cardIdsOf (cards : List ClusterCard) : List (Option String) :=
  cards.map ClusterCard.id

theorem cardIdsOf_cons (c : ClusterCard) (rest : List ClusterCard) :
    cardIdsOf (c :: rest) = c.id :: cardIdsOf rest := rfl

theorem mem_cardIdsOf_dedupByIdAux (i : Option String) :
    ∀ (cards : List ClusterCard) (seen : List (Option String)),
      i ∈ cardIdsOf (dedupByIdAux seen cards) ↔ (i ∈ cardIdsOf cards ∧ i ∉ seen) := by
  intro cards
  induction cards with
  | nil => intro seen; simp [dedupByIdAux, cardIdsOf]
  | cons c rest ih =>
    intro seen
    by_cases hc : c.id ∈ seen
    · rw [dedupByIdAux, if_pos hc, ih seen, cardIdsOf_cons, List.mem_cons]
      constructor
      · rintro ⟨h1, h2⟩; exact ⟨Or.inr h1, h2⟩
      · rintro ⟨h1 | h1, h2⟩
        · exact absurd (h1.symm ▸ hc) h2
        · exact ⟨h1, h2⟩
    · simp only [dedupByIdAux, if_neg hc, cardIdsOf_cons, List.mem_cons, ih (c.id :: seen)]
      constructor
      · rintro (h | ⟨h1, h2⟩)
        · exact ⟨Or.inl h, fun hs => hc (h ▸ hs)⟩
        · exact ⟨Or.inr h1, fun hs => h2 (Or.inr hs)⟩
      · rintro ⟨h1 | h1, h2⟩
        · exact Or.inl h1
        · by_cases hic : i = c.id
          · exact Or.inl hic
          · exact Or.inr ⟨h1, fun hs => hs.elim hic h2⟩

theorem nodup_dedupByIdAux :
    ∀ (cards : List ClusterCard) (seen : List (Option String)),
      (cardIdsOf (dedupByIdAux seen cards)).Nodup := by
  intro cards
  induction cards with
  | nil => intro seen; simp [dedupByIdAux, cardIdsOf]
  | cons c rest ih =>
    intro seen
    by_cases hc : c.id ∈ seen
    · rw [dedupByIdAux, if_pos hc]; exact ih seen
    · rw [dedupByIdAux, if_neg hc, cardIdsOf_cons]
      refine List.nodup_cons.mpr ⟨fun hmem => ?_, ih (c.id :: seen)⟩
      have := (mem_cardIdsOf_dedupByIdAux c.id rest (c.id :: seen)).mp hmem
      exact this.2 (List.mem_cons_self _ _)

theorem dedupByIdAux_eq_nil (cards : List ClusterCard) (seen : List (Option String))
    (h : ∀ i ∈ cardIdsOf cards, i ∈ seen) : dedupByIdAux seen cards = [] := by
  induction cards with
  | nil => simp [dedupByIdAux]
  | cons c rest ih =>
    rw [dedupByIdAux, if_pos (h c.id (by rw [cardIdsOf_cons]; exact List.mem_cons_self _ _))]
    exact ih fun i hi => h i (by rw [cardIdsOf_cons]; exact List.mem_cons_of_mem _ hi)

theorem dedupByIdAux_append_absorb :
    ∀ (L M : List ClusterCard) (seen : List (Option String)),
      (cardIdsOf L).Nodup → (∀ i ∈ cardIdsOf L, i ∉ seen) →
      (∀ i ∈ cardIdsOf M, i ∈ seen ∨ i ∈ cardIdsOf L) →
      dedupByIdAux seen (L ++ M) = L := by
  intro L
  induction L with
  | nil =>
    intro M seen _ _ hsub
    exact dedupByIdAux_eq_nil M seen fun i hi => (hsub i hi).resolve_right (by simp [cardIdsOf])
  | cons c rest ih =>
    intro M seen hnodup hdisj hsub
    have hc : c.id ∉ seen := hdisj c.id (by rw [cardIdsOf_cons]; exact List.mem_cons_self _ _)
    rw [List.cons_append, dedupByIdAux, if_neg hc]
    rw [cardIdsOf_cons] at hnodup hdisj
    have hnodup' : (cardIdsOf rest).Nodup := (List.nodup_cons.mp hnodup).2
    have hhead : c.id ∉ cardIdsOf rest := (List.nodup_cons.mp hnodup).1
    refine congrArg (c :: ·) (ih M (c.id :: seen) hnodup' ?_ ?_)
    · intro i hi hmem
      rcases List.mem_cons.mp hmem with h | h
      · exact hhead (h ▸ hi)
      · exact hdisj i (List.mem_cons_of_mem _ hi) h
    · intro i hi
      rcases hsub i hi with h | h
      · exact Or.inl (List.mem_cons_of_mem _ h)
      · rcases List.mem_cons.mp h with h' | h'
        · exact Or.inl (h' ▸ List.mem_cons_self _ _)
        · exact Or.inr h'

/-- Absorption: concatenating cards whose ids already occur in a
duplicate-free list and deduplicating gives back the original list. -/
theorem dedupById_absorb (L M : List ClusterCard) (hnodup : (cardIdsOf L).Nodup)
    (hsub : ∀ i ∈ cardIdsOf M, i ∈ cardIdsOf L) : dedupById (L ++ M) = L :=
  dedupByIdAux_append_absorb L M [] hnodup (by simp) fun i hi => Or.inr (hsub i hi)

theorem cardIdsOf_append (a b : List ClusterCard) :
    cardIdsOf (a ++ b) = cardIdsOf a ++ cardIdsOf b := List.map_append _ _ _

theorem mem_cardIdsOf_dedupById (i : Option String) (cards : List ClusterCard) :
    i ∈ cardIdsOf (dedupById cards) ↔ i ∈ cardIdsOf cards := by
  rw [dedupById, mem_cardIdsOf_dedupByIdAux]
  simp

theorem nodup_dedupById (cards : List ClusterCard) :
    (cardIdsOf (dedupById cards)).Nodup := nodup_dedupByIdAux cards []

/-- The merged-in condition: the first accumulator cluster matching the
new cluster's name (if any) already carries all of the new cluster's
card ids and has no duplicate ids itself. -/
def absorbs : List Cluster → Cluster → Prop
  | [], _ => False
  | c :: rest, nc =>
    if matchesName c.clusterName c.title (jsToLower nc.clusterName) then
      (cardIdsOf c.cards).Nodup ∧ ∀ i ∈ cardIdsOf nc.cards, i ∈ cardIdsOf c.cards
    else absorbs rest nc

theorem mergeOne_eq_of_absorbs (nc : Cluster) :
    ∀ acc : List Cluster, absorbs acc nc → mergeOne acc nc = acc := by
  intro acc
  induction acc with
  | nil => intro h; exact absurd h (by simp [absorbs])
  | cons c rest ih =>
    intro h
    by_cases hm : matchesName c.clusterName c.title (jsToLower nc.clusterName) = true
    · rw [absorbs, if_pos hm] at h
      rw [mergeOne, if_pos hm, dedupById_absorb _ _ h.1 h.2]
    · rw [absorbs, if_neg hm] at h
      rw [mergeOne, if_neg hm, ih h]

theorem absorbs_mergeOne_self (nc : Cluster) (hname : nc.clusterName ≠ "")
    (hnodup : (cardIdsOf nc.cards).Nodup) :
    ∀ acc : List Cluster, absorbs (mergeOne acc nc) nc := by
  intro acc
  induction acc with
  | nil =>
    have hm : matchesName nc.clusterName nc.title (jsToLower nc.clusterName) = true := by
      simp [matchesName, hname]
    rw [mergeOne, absorbs, if_pos hm]
    exact ⟨hnodup, fun i hi => hi⟩
  | cons c rest ih =>
    by_cases hm : matchesName c.clusterName c.title (jsToLower nc.clusterName) = true
    · rw [mergeOne, if_pos hm, absorbs, if_pos hm]
      refine ⟨nodup_dedupById _, fun i hi => ?_⟩
      rw [mem_cardIdsOf_dedupById, cardIdsOf_append]
      exact List.mem_append.mpr (Or.inr hi)
    · rw [mergeOne, if_neg hm, absorbs, if_neg hm]
      exact ih

theorem absorbs_mergeOne_mono (nc d : Cluster) :
    ∀ acc : List Cluster, absorbs acc d → absorbs (mergeOne acc nc) d := by
  intro acc
  induction acc with
  | nil => intro h; exact absurd h (by simp [absorbs])
  | cons c rest ih =>
    intro h
    by_cases hmnc : matchesName c.clusterName c.title (jsToLower nc.clusterName) = true
    · rw [mergeOne, if_pos hmnc]
      by_cases hmd : matchesName c.clusterName c.title (jsToLower d.clusterName) = true
      · rw [absorbs, if_pos hmd] at h
        rw [absorbs, if_pos hmd]
        refine ⟨nodup_dedupById _, fun i hi => ?_⟩
        rw [mem_cardIdsOf_dedupById, cardIdsOf_append]
        exact List.mem_append.mpr (Or.inl (h.2 i hi))
      · rw [absorbs, if_neg hmd] at h
        rw [absorbs, if_neg hmd]
        exact h
    · rw [mergeOne, if_neg hmnc]
      by_cases hmd : matchesName c.clusterName c.title (jsToLower d.clusterName) = true
      · rw [absorbs, if_pos hmd] at h
        rw [absorbs, if_pos hmd]
        exact h
      · rw [absorbs, if_neg hmd] at h
        rw [absorbs, if_neg hmd]
        exact ih h

theorem absorbs_mergeBatch_mono (d : Cluster) :
    ∀ (batch : List Cluster) (acc : List Cluster),
      absorbs acc d → absorbs (mergeBatch acc batch) d := by
  intro batch
  induction batch with
  | nil => intro acc h; exact h
  | cons b rest ih =>
    intro acc h
    exact ih (mergeOne acc b) (absorbs_mergeOne_mono b d acc h)

theorem mergeBatch_absorbs_all :
    ∀ (batch : List Cluster) (acc : List Cluster),
      (∀ c ∈ batch, c.clusterName ≠ "" ∧ (cardIdsOf c.cards).Nodup) →
      ∀ c ∈ batch, absorbs (mergeBatch acc batch) c := by
  intro batch
  induction batch with
  | nil => intro acc _ c hc; exact absurd hc (List.not_mem_nil c)
  | cons b rest ih =>
    intro acc hgood c hc
    rcases List.mem_cons.mp hc with rfl | hc'
    · have hb := hgood c (List.mem_cons_self _ _)
      exact absorbs_mergeBatch_mono c rest (mergeOne acc c)
        (absorbs_mergeOne_self c hb.1 hb.2 acc)
    · exact ih (mergeOne acc b) (fun x hx => hgood x (List.mem_cons_of_mem _ hx)) c hc'

theorem mergeBatch_eq_of_absorbs :
    ∀ (batch : List Cluster) (acc : List Cluster),
      (∀ c ∈ batch, absorbs acc c) → mergeBatch acc batch = acc := by
  intro batch
  induction batch with
  | nil => intro acc _; rfl
  | cons b rest ih =>
    intro acc h
    have hb : mergeOne acc b = acc := mergeOne_eq_of_absorbs b acc (h b (List.mem_cons_self _ _))
    show mergeBatch (mergeOne acc b) rest = acc
    rw [hb]
    exact ih acc fun c hc => h c (List.mem_cons_of_mem _ hc)

theorem mergeOne_cards_nodup (nc : Cluster) (hnc : (cardIdsOf nc.cards).Nodup) :
    ∀ acc : List Cluster, (∀ c ∈ acc, (cardIdsOf c.cards).Nodup) →
      ∀ c ∈ mergeOne acc nc, (cardIdsOf c.cards).Nodup := by
  intro acc
  induction acc with
  | nil =>
    intro _ c hc
    rw [mergeOne] at hc
    rcases List.mem_singleton.mp hc with rfl
    exact hnc
  | cons b rest ih =>
    intro hacc c hc
    by_cases hm : matchesName b.clusterName b.title (jsToLower nc.clusterName) = true
    · rw [mergeOne, if_pos hm] at hc
      rcases List.mem_cons.mp hc with rfl | hc'
      · exact nodup_dedupById _
      · exact hacc c (List.mem_cons_of_mem _ hc')
    · rw [mergeOne, if_neg hm] at hc
      rcases List.mem_cons.mp hc with rfl | hc'
      · exact hacc c (List.mem_cons_self _ _)
      · exact ih (fun x hx => hacc x (List.mem_cons_of_mem _ hx)) c hc'

theorem mergeBatch_cards_nodup :
    ∀ (batch : List Cluster) (acc : List Cluster),
      (∀ c ∈ batch, (cardIdsOf c.cards).Nodup) →
      (∀ c ∈ acc, (cardIdsOf c.cards).Nodup) →
      ∀ c ∈ mergeBatch acc batch, (cardIdsOf c.cards).Nodup := by
  intro batch
  induction batch with
  | nil => intro acc _ hacc; exact hacc
  | cons b rest ih =>
    intro acc hbatch hacc
    exact ih (mergeOne acc b)
      (fun x hx => hbatch x (List.mem_cons_of_mem _ hx))
      (mergeOne_cards_nodup b (hbatch b (List.mem_cons_self _ _)) acc hacc)

/-- C3 (amended): merging the same batch result into an accumulator twice
yields the same accumulator as merging it once, and every merged cluster
has a duplicate-free card id list, PROVIDED every cluster of the batch
result has a nonempty name and a duplicate-free card list (and, for the
second part, the accumulator's clusters do too).  Without that proviso
the claim fails, see the counterexample. -/
theorem merge_idempotence (acc batch : List Cluster)
    (hbatch : ∀ c ∈ batch, c.clusterName ≠ "" ∧ (cardIdsOf c.cards).Nodup)
    (hacc : ∀ c ∈ acc, (cardIdsOf c.cards).Nodup) :
    mergeBatch (mergeBatch acc batch) batch = mergeBatch acc batch ∧
    ∀ c ∈ mergeBatch acc batch, (cardIdsOf c.cards).Nodup :=
  ⟨mergeBatch_eq_of_absorbs batch (mergeBatch acc batch) (mergeBatch_absorbs_all batch acc hbatch),
   mergeBatch_cards_nodup batch acc (fun c hc => (hbatch c hc).2) hacc⟩

/-- Witness for C3 (amended) at a concrete input. -/
theorem merge_idempotence_witness :
    ((∀ c ∈ [Cluster.mk "A" none [⟨some "x", none⟩]], c.clusterName ≠ "" ∧ (cardIdsOf c.cards).Nodup) ∧
     (∀ c ∈ ([⟨"B", none, [⟨some "y", none⟩]⟩] : List Cluster), (cardIdsOf c.cards).Nodup)) ∧
    (mergeBatch (mergeBatch [⟨"B", none, [⟨some "y", none⟩]⟩] [Cluster.mk "A" none [⟨some "x", none⟩]])
        [Cluster.mk "A" none [⟨some "x", none⟩]] =
      mergeBatch [⟨"B", none, [⟨some "y", none⟩]⟩] [Cluster.mk "A" none [⟨some "x", none⟩]] ∧
     ∀ c ∈ mergeBatch [⟨"B", none, [⟨some "y", none⟩]⟩] [Cluster.mk "A" none [⟨some "x", none⟩]],
       (cardIdsOf c.cards).Nodup) :=
  ⟨⟨by decide, by decide⟩,
   merge_idempotence [⟨"B", none, [⟨some "y", none⟩]⟩] [Cluster.mk "A" none [⟨some "x", none⟩]]
     (by decide) (by decide)⟩

/-- C3 counterexample: the claim as stated fails.  A batch result whose
single cluster "A" carries the same card id twice is appended verbatim on
the first application (cards `[x, x]`, already violating the claimed
no-duplicate-ids consequence), and only the second application
deduplicates, so merging twice differs from merging once. -/
theorem merge_idempotence_counterexample :
    mergeBatch (mergeBatch [] [Cluster.mk "A" none [⟨some "x", none⟩, ⟨some "x", none⟩]])
        [Cluster.mk "A" none [⟨some "x", none⟩, ⟨some "x", none⟩]] ≠
      mergeBatch [] [Cluster.mk "A" none [⟨some "x", none⟩, ⟨some "x", none⟩]] := by
  decide

/-- C4: if batch 1 returns a cluster named "Auth bugs" with cards `[a, b]`
and batch 2 returns a cluster named "AUTH BUGS" (same name up to case)
with cards `[b, c]`, the merged accumulator is exactly one cluster
"Auth bugs" with cards `[a, b, c]` — `b` kept once, first occurrence
first. -/
theorem cross_batch_name_reuse (a b c : ClusterCard)
    (hab : a.id ≠ b.id) (hac : a.id ≠ c.id) (hbc : b.id ≠ c.id) :
    accumulateBatches
        [some [Cluster.mk "Auth bugs" none [a, b]], some [Cluster.mk "AUTH BUGS" none [b, c]]] =
      [Cluster.mk "Auth bugs" none [a, b, c]] := by
  show mergeOne [Cluster.mk "Auth bugs" none [a, b]] (Cluster.mk "AUTH BUGS" none [b, c]) = _
  rw [mergeOne,
    if_pos (by decide : matchesName "Auth bugs" none (jsToLower "AUTH BUGS") = true)]
  have e1 : dedupById ([a, b] ++ [b, c]) = [a, b, c] := by
    show dedupByIdAux [] [a, b, b, c] = [a, b, c]
    rw [dedupByIdAux, if_neg (List.not_mem_nil a.id)]
    rw [dedupByIdAux, if_neg (by
      intro h
      exact (Ne.symm hab) (List.mem_singleton.mp h))]
    rw [dedupByIdAux, if_pos (List.mem_cons_self b.id [a.id])]
    rw [dedupByIdAux, if_neg (by
      intro h
      rcases List.mem_cons.mp h with h | h
      · exact (Ne.symm hbc) h
      · exact (Ne.symm hac) (List.mem_singleton.mp h))]
    rw [dedupByIdAux]
  rw [e1]

/-- Witness for C4 at concrete distinct cards. -/
theorem cross_batch_name_reuse_witness :
    ((⟨some "A", none⟩ : ClusterCard).id ≠ (⟨some "B", none⟩ : ClusterCard).id ∧
     (⟨some "A", none⟩ : ClusterCard).id ≠ (⟨some "C", none⟩ : ClusterCard).id ∧
     (⟨some "B", none⟩ : ClusterCard).id ≠ (⟨some "C", none⟩ : ClusterCard).id) ∧
    accumulateBatches
        [some [Cluster.mk "Auth bugs" none [⟨some "A", none⟩, ⟨some "B", none⟩]],
         some [Cluster.mk "AUTH BUGS" none [⟨some "B", none⟩, ⟨some "C", none⟩]]] =
      [Cluster.mk "Auth bugs" none [⟨some "A", none⟩, ⟨some "B", none⟩, ⟨some "C", none⟩]] :=
  ⟨⟨by decide, by decide, by decide⟩,
   cross_batch_name_reuse ⟨some "A", none⟩ ⟨some "B", none⟩ ⟨some "C", none⟩
     (by decide) (by decide) (by decide)⟩

/-- The lower-cased cluster names of an accumulator, in order. -/
def lowerNames (clusters : List Cluster) : List String :=
  clusters.map fun c => jsToLower c.clusterName

/-- Accumulator name invariant: every cluster name is nonempty and no two
names agree case-insensitively. -/
def namesOk (clusters : List Cluster) : Prop :=
  (∀ c ∈ clusters, c.clusterName ≠ "") ∧ (lowerNames clusters).Nodup

theorem mergeOne_map_clusterName (nc : Cluster) :
    ∀ acc : List Cluster,
      (mergeOne acc nc).map Cluster.clusterName =
        if acc.any (fun c => matchesName c.clusterName c.title (jsToLower nc.clusterName)) then
          acc.map Cluster.clusterName
        else acc.map Cluster.clusterName ++ [nc.clusterName] := by
  intro acc
  induction acc with
  | nil => simp [mergeOne]
  | cons b rest ih =>
    by_cases hm : matchesName b.clusterName b.title (jsToLower nc.clusterName) = true
    · rw [mergeOne, if_pos hm, List.any_cons, hm]
      simp
    · rw [mergeOne, if_neg hm, List.any_cons, (Bool.not_eq_true _).mp hm]
      simp only [Bool.false_or, List.map_cons, ih]
      by_cases hr : rest.any (fun c => matchesName c.clusterName c.title (jsToLower nc.clusterName)) = true
      · rw [if_pos hr, if_pos hr]
      · rw [if_neg hr, if_neg hr, List.cons_append]

theorem map_lowerName (l : List Cluster) :
    (l.map Cluster.clusterName).map jsToLower = lowerNames l := by
  induction l with
  | nil => rfl
  | cons c rest ih => simp only [lowerNames, List.map_cons] at *; rw [ih]

theorem mergeOne_namesOk (acc : List Cluster) (nc : Cluster)
    (hacc : namesOk acc) (hnc : nc.clusterName ≠ "") : namesOk (mergeOne acc nc) := by
  have hmap := mergeOne_map_clusterName nc acc
  by_cases hfound : acc.any (fun c => matchesName c.clusterName c.title (jsToLower nc.clusterName)) = true
  · rw [if_pos hfound] at hmap
    constructor
    · intro c hc
      have : c.clusterName ∈ acc.map Cluster.clusterName := by
        rw [← hmap]; exact List.mem_map_of_mem _ hc
      rcases List.mem_map.mp this with ⟨d, hd, he⟩
      exact he ▸ hacc.1 d hd
    · have : lowerNames (mergeOne acc nc) = lowerNames acc := by
        rw [← map_lowerName, hmap, map_lowerName]
      show (lowerNames (mergeOne acc nc)).Nodup
      rw [this]
      exact hacc.2
  · rw [if_neg hfound] at hmap
    have hnomatch : ∀ c ∈ acc, jsToLower c.clusterName ≠ jsToLower nc.clusterName := by
      intro c hc heq
      have hfalse : matchesName c.clusterName c.title (jsToLower nc.clusterName) = false :=
        Bool.not_eq_true _ ▸ Bool.eq_false_iff.mpr
          (List.any_eq_false.mp ((Bool.not_eq_true _).mp hfound) c hc)
      rw [matchesName.eq_def] at hfalse
      have h1 : (c.clusterName != "" && (jsToLower c.clusterName == jsToLower nc.clusterName))
          = false := by
        cases hor : (c.clusterName != "" && (jsToLower c.clusterName == jsToLower nc.clusterName))
        · rfl
        · rw [hor, Bool.true_or] at hfalse
          exact hfalse
      have htrue : (c.clusterName != "") = true := by
        simpa using hacc.1 c hc
      rw [htrue, Bool.true_and] at h1
      simp [heq] at h1
    constructor
    · intro c hc
      have : c.clusterName ∈ acc.map Cluster.clusterName ++ [nc.clusterName] := by
        rw [← hmap]; exact List.mem_map_of_mem _ hc
      rcases List.mem_append.mp this with h | h
      · rcases List.mem_map.mp h with ⟨d, hd, he⟩
        exact he ▸ hacc.1 d hd
      · exact (List.mem_singleton.mp h) ▸ hnc
    · have : lowerNames (mergeOne acc nc) = lowerNames acc ++ [jsToLower nc.clusterName] := by
        rw [← map_lowerName, hmap, List.map_append, map_lowerName]
        rfl
      show (lowerNames (mergeOne acc nc)).Nodup
      rw [this]
      refine List.Nodup.append hacc.2 (List.nodup_singleton _) ?_
      intro x hx hx'
      rcases List.mem_map.mp hx with ⟨d, hd, he⟩
      exact hnomatch d hd (he.trans (List.mem_singleton.mp hx'))

theorem mergeBatch_namesOk :
    ∀ (batch : List Cluster) (acc : List Cluster), namesOk acc →
      (∀ c ∈ batch, c.clusterName ≠ "") → namesOk (mergeBatch acc batch) := by
  intro batch
  induction batch with
  | nil => intro acc hacc _; exact hacc
  | cons b rest ih =>
    intro acc hacc hne
    exact ih (mergeOne acc b)
      (mergeOne_namesOk acc b hacc (hne b (List.mem_cons_self _ _)))
      fun c hc => hne c (List.mem_cons_of_mem _ hc)

theorem accumulateBatchesFrom_namesOk :
    ∀ (results : List (Option (List Cluster))) (i : Nat) (acc : List Cluster),
      i ≠ 0 → namesOk acc →
      (∀ r ∈ results, ∀ cs, r = some cs → ∀ c ∈ cs, c.clusterName ≠ "") →
      namesOk (accumulateBatchesFrom i acc results) := by
  intro results
  induction results with
  | nil => intro i acc _ hacc _; exact hacc
  | cons r rest ih =>
    intro i acc hi hacc hne
    rw [accumulateBatchesFrom]
    refine ih (i + 1) _ (Nat.succ_ne_zero i) ?_
      fun r' hr' => hne r' (List.mem_cons_of_mem _ hr')
    match r with
    | none => exact hacc
    | some cs =>
      rw [processBatchResult, if_neg (by simpa using hi)]
      exact mergeBatch_namesOk cs acc hacc
        (hne (some cs) (List.mem_cons_self _ _) cs rfl)

/-- C8 (amended): the batched merge keeps cluster names unique up to case
PROVIDED every returned cluster has a nonempty name and the first batch
result itself has case-insensitively distinct names; the first batch is
taken verbatim, so a duplicate inside it survives (see counterexample). -/
theorem clusterset_name_uniqueness (results : List (Option (List Cluster))) (now : Nat)
    (hne : ∀ r ∈ results, ∀ c ∈ r.getD [], c.clusterName ≠ "")
    (hfirst : (lowerNames ((results[0]?).getD none |>.getD [])).Nodup) :
    ((accumulateBatches results).map (finalizeCluster now)).Pairwise
      (fun c d => jsToLower c.clusterName ≠ jsToLower d.clusterName) := by
  have hok : namesOk (accumulateBatches results) := by
    cases results with
    | nil => exact ⟨fun c hc => absurd hc (List.not_mem_nil c), List.nodup_nil⟩
    | cons r0 rest =>
      show namesOk (accumulateBatchesFrom 1 (processBatchResult 0 [] r0) rest)
      refine accumulateBatchesFrom_namesOk rest 1 _ one_ne_zero ?_
        fun r hr cs hcs c hc => hne r (List.mem_cons_of_mem _ hr) c (hcs ▸ hc)
      match r0 with
      | none => exact ⟨fun c hc => absurd hc (List.not_mem_nil c), List.nodup_nil⟩
      | some cs0 =>
        exact ⟨fun c hc => hne (some cs0) (List.mem_cons_self _ _) c hc,
          by simpa using hfirst⟩
  have h2 : (accumulateBatches results).Pairwise
      (fun a b => jsToLower a.clusterName ≠ jsToLower b.clusterName) :=
    List.pairwise_map.mp hok.2
  rw [List.pairwise_map]
  exact h2

/-- Witness for C8 (amended) at a concrete two-batch result sequence. -/
theorem clusterset_name_uniqueness_witness :
    ((∀ r ∈ [some [Cluster.mk "Auth" none []], some [Cluster.mk "auth" none []]],
        ∀ c ∈ r.getD [], c.clusterName ≠ "") ∧
     (lowerNames ((([some [Cluster.mk "Auth" none []],
        some [Cluster.mk "auth" none []]][0]?).getD none).getD [])).Nodup) ∧
    ((accumulateBatches [some [Cluster.mk "Auth" none []],
        some [Cluster.mk "auth" none []]]).map (finalizeCluster 0)).Pairwise
      (fun c d => jsToLower c.clusterName ≠ jsToLower d.clusterName) :=
  ⟨⟨by decide, by decide⟩,
   clusterset_name_uniqueness
     [some [Cluster.mk "Auth" none []], some [Cluster.mk "auth" none []]] 0
     (by decide) (by decide)⟩

/-- C8 counterexample: the claim as stated fails when a single batch
result (here the first) itself contains two same-named clusters: the
first batch is copied verbatim, so the final set keeps both "Auth" and
"auth" even though the names match case-insensitively. -/
theorem clusterset_name_uniqueness_counterexample :
    ¬ ((accumulateBatches [some [Cluster.mk "Auth" none [], Cluster.mk "auth" none []],
          some []]).map (finalizeCluster 0)).Pairwise
        (fun c d => jsToLower c.clusterName ≠ jsToLower d.clusterName) := by
  decide

/-- Lexicographic code-point comparison of character lists: the comparison
underlying the default JavaScript string ordering used by `Array.prototype.sort`
on the card-id arrays of this service (ids are BMP strings, where code-unit
and code-point order agree). -/
def lexLt : List Char → List Char → Bool
  | [], [] => false
  | [], _ :: _ => true
  | _ :: _, [] => false
  | a :: as, b :: bs => if a < b then true else if b < a then false else lexLt as bs

theorem lexLt_irrefl : ∀ as : List Char, lexLt as as = false := by
  intro as
  induction as with
  | nil => rfl
  | cons a as ih => rw [lexLt, if_neg (lt_irrefl a), if_neg (lt_irrefl a)]; exact ih

theorem lexLt_eq_of_not_lt : ∀ as bs : List Char,
    lexLt as bs = false → lexLt bs as = false → as = bs := by
  intro as
  induction as with
  | nil =>
    intro bs h1 _
    cases bs with
    | nil => rfl
    | cons b bs => rw [lexLt] at h1; exact absurd h1 (by simp)
  | cons a as ih =>
    intro bs h1 h2
    cases bs with
    | nil => rw [lexLt] at h2; exact absurd h2 (by simp)
    | cons b bs =>
      rw [lexLt] at h1 h2
      by_cases hab : a < b
      · rw [if_pos hab] at h1; exact absurd h1 (by simp)
      · by_cases hba : b < a
        · rw [if_pos hba] at h2; exact absurd h2 (by simp)
        · rw [if_neg hab, if_neg hba] at h1
          rw [if_neg hba, if_neg hab] at h2
          rw [le_antisymm (not_lt.mp hba) (not_lt.mp hab), ih bs h1 h2]

theorem lexLt_trans : ∀ as bs cs : List Char,
    lexLt as bs = true → lexLt bs cs = true → lexLt as cs = true := by
  intro as
  induction as with
  | nil =>
    intro bs cs h1 h2
    cases bs with
    | nil => rw [lexLt] at h1; exact absurd h1 (by simp)
    | cons b bs =>
      cases cs with
      | nil => rw [lexLt] at h2; exact absurd h2 (by simp)
      | cons c cs => rw [lexLt]
  | cons a as ih =>
    intro bs cs h1 h2
    cases bs with
    | nil => rw [lexLt] at h1; exact absurd h1 (by simp)
    | cons b bs =>
      cases cs with
      | nil => rw [lexLt] at h2; exact absurd h2 (by simp)
      | cons c cs =>
        rw [lexLt] at h1 h2 ⊢
        by_cases hab : a < b
        · by_cases hbc : b < c
          · rw [if_pos (lt_trans hab hbc)]
          · by_cases hcb : c < b
            · rw [if_neg hbc, if_pos hcb] at h2; exact absurd h2 (by simp)
            · rw [le_antisymm (not_lt.mp hcb) (not_lt.mp hbc)] at hab
              rw [if_pos hab]
        · by_cases hba : b < a
          · rw [if_neg hab, if_pos hba] at h1; exact absurd h1 (by simp)
          · have hab' : a = b := le_antisymm (not_lt.mp hba) (not_lt.mp hab)
            rw [if_neg hab, if_neg hba] at h1
            by_cases hbc : b < c
            · rw [if_pos (hab' ▸ hbc)]
            · by_cases hcb : c < b
              · rw [if_neg hbc, if_pos hcb] at h2; exact absurd h2 (by simp)
              · have hbc' : b = c := le_antisymm (not_lt.mp hcb) (not_lt.mp hbc)
                rw [if_neg hbc, if_neg hcb] at h2
                have hac : a = c := hab'.trans hbc'
                rw [if_neg (hac ▸ lt_irrefl a), if_neg (hac ▸ lt_irrefl a)]
                exact ih bs cs h1 h2

/-- The non-strict string order corresponding to `lexLt` (a ≤ b iff not b < a). -/
def strLeR (a b : String) : Prop := lexLt b.data a.data = false

instance : DecidableRel strLeR := fun a b =>
  inferInstanceAs (Decidable (lexLt b.data a.data = false))

instance : IsTrans String strLeR :=
  ⟨fun a b c hab hbc => by
    unfold strLeR at *
    cases hca : lexLt c.data a.data
    · rfl
    · exfalso
      cases hab2 : lexLt a.data b.data
      · have he : a.data = b.data := lexLt_eq_of_not_lt _ _ hab2 hab
        rw [he] at hca
        rw [hbc] at hca
        exact absurd hca (by simp)
      · have := lexLt_trans _ _ _ hca hab2
        rw [hbc] at this
        exact absurd this (by simp)⟩

instance : IsTotal String strLeR :=
  ⟨fun a b => by
    unfold strLeR
    cases hab : lexLt a.data b.data
    · exact Or.inr rfl
    · cases hba : lexLt b.data a.data
      · exact Or.inl rfl
      · have := lexLt_trans _ _ _ hab hba
        rw [lexLt_irrefl] at this
        exact absurd this (by simp)⟩

instance : IsAntisymm String strLeR :=
  ⟨fun a b hab hba => by
    unfold strLeR at *
    have hdata : a.data = b.data := lexLt_eq_of_not_lt _ _ hba hab
    exact congrArg String.mk hdata⟩

/-- Model of JavaScript `Array.prototype.sort()` on an array of strings:
the sorted permutation under the default code-unit comparator.  The
comparator is a total order whose equal elements are identical strings,
so every correct sorting algorithm returns the same list; insertion sort
is used for a kernel-reducible definition. -/
def jsSortStrings (l : List String) : List String := l.insertionSort strLeR

theorem jsSortStrings_eq_of_perm (l1 l2 : List String) (h : l1.Perm l2) :
    jsSortStrings l1 = jsSortStrings l2 :=
  List.eq_of_perm_of_sorted
    ((List.perm_insertionSort _ _).trans (h.trans (List.perm_insertionSort _ _).symm))
    (List.sorted_insertionSort _ _) (List.sorted_insertionSort _ _)

/-- A JSON value, as passed to `JSON.stringify`.  The service only
serialises strings, numbers, booleans, null, arrays and plain objects
(object fields in insertion order, keys unique). -/
inductive Json where
  | str : String → Json
  | num : Int → Json
  | bool : Bool → Json
  | null : Json
  | arr : List Json → Json
  | obj : List (String × Json) → Json

/-- JSON string escaping, restricted to the quote and backslash characters
(the ids and names in the claims contain neither control characters nor
non-ASCII text). -/
def jsEscape (s : String) : String :=
  ⟨s.data.foldr (fun c acc => if c == '"' || c == '\\' then '\\' :: c :: acc else c :: acc) []⟩

def jsQuote (s : String) : String := "\"" ++ jsEscape s ++ "\""

/-- JSON.stringify number rendering for the integers used here. -/
def renderNum (n : Int) : String := toString n

mutual
/-- JSON.stringify(value, replacer): `wl = some ks` models a replacer
ARRAY, i.e. an ECMA-262 PropertyList: at every (nested) non-array object,
exactly the properties named in `ks` are serialised, in the order of `ks`
(absent names are skipped); array elements are serialised unconditionally.
`wl = none` models a plain `JSON.stringify(value)`.  Object fields are
first rendered (`renderFields`, keeping keys) and then selected by the
PropertyList; since selection is by key only, this equals the ECMA order
of operations. -/
def renderJson (wl : Option (List String)) : Json → String
  | .str s => jsQuote s
  | .num n => renderNum n
  | .bool b => if b then "true" else "false"
  | .null => "null"
  | .arr xs => "[" ++ String.intercalate "," (renderElems wl xs) ++ "]"
  | .obj fs =>
    let rfs := renderFields wl fs
    let selected :=
      match wl with
      | none => rfs
      | some ks => ks.filterMap fun k => rfs.find? fun kv => kv.1 == k
    "\x7b" ++ String.intercalate "," (selected.map fun kv => jsQuote kv.1 ++ ":" ++ kv.2) ++
      "\x7d"

def renderElems (wl : Option (List String)) : List Json → List String
  | [] => []
  | x :: xs => renderJson wl x :: renderElems wl xs

def renderFields (wl : Option (List String)) : List (String × Json) → List (String × String)
  | [] => []
  | (k, v) :: fs => (k, renderJson wl v) :: renderFields wl fs
end

/-- Object.keys of a JSON value (insertion order); the service only ever
passes plain objects to `generateCacheKey`. -/
def topLevelKeys : Json → List String
  | .obj fs => fs.map Prod.fst
  | _ => []

/-- generateCacheKey from ai.ts:
`const sortedData = JSON.stringify(data, Object.keys(data).sort()); return endpoint + ":" + sortedData;`. -/
def generateCacheKey (endpoint : String) (data : Json) : String :=
  let sortedData := renderJson (some (jsSortStrings (topLevelKeys data))) data
  endpoint ++ ":" ++ sortedData

theorem renderFields_eq_map (wl : Option (List String)) :
    ∀ fs : List (String × Json),
      renderFields wl fs = fs.map fun kv => (kv.1, renderJson wl kv.2) := by
  intro fs
  induction fs with
  | nil => rfl
  | cons kv rest ih => rw [show renderFields wl (kv :: rest) =
      (kv.1, renderJson wl kv.2) :: renderFields wl rest from rfl, ih, List.map_cons]

theorem find_key_eq_of_perm {β : Type} (k : String) :
    ∀ {l1 l2 : List (String × β)}, l1.Perm l2 → (l1.map Prod.fst).Nodup →
      l1.find? (fun kv => kv.1 == k) = l2.find? (fun kv => kv.1 == k) := by
  intro l1 l2 h
  induction h with
  | nil => intro _; rfl
  | cons x h ih =>
    intro hnodup
    rw [List.map_cons] at hnodup
    cases hpx : (x.1 == k)
    · simp only [List.find?, hpx]
      exact ih (List.nodup_cons.mp hnodup).2
    · simp only [List.find?, hpx]
  | swap x y l =>
    intro hnodup
    rw [List.map_cons, List.map_cons] at hnodup
    have hyx : y.1 ≠ x.1 := by
      have h1 := (List.nodup_cons.mp hnodup).1
      intro he
      exact h1 (by rw [he]; exact List.mem_cons_self _ _)
    cases hpy : (y.1 == k) <;> cases hpx : (x.1 == k) <;>
      simp only [List.find?, hpx, hpy]
    simp only [beq_iff_eq] at hpy hpx
    exact absurd (hpy.trans hpx.symm) hyx
  | trans h1 h2 ih1 ih2 =>
    intro hnodup
    refine (ih1 hnodup).trans (ih2 ?_)
    exact ((h1.map Prod.fst).nodup_iff).mp hnodup

/-- C9: generateCacheKey is independent of the insertion order of the
top-level keys of the payload object: two payloads with the same
key-value pairs (keys unique) in different orders produce identical
cache-key strings, for every endpoint name. -/
theorem signature_order_independence (endpoint : String) (fs1 fs2 : List (String × Json))
    (hperm : fs1.Perm fs2) (hnodup : (fs1.map Prod.fst).Nodup) :
    generateCacheKey endpoint (Json.obj fs1) = generateCacheKey endpoint (Json.obj fs2) := by
  have hkeys : jsSortStrings (topLevelKeys (Json.obj fs2)) =
      jsSortStrings (topLevelKeys (Json.obj fs1)) :=
    (jsSortStrings_eq_of_perm _ _ (hperm.map Prod.fst)).symm
  have hrender : ∀ ks : List String,
      renderJson (some ks) (Json.obj fs1) = renderJson (some ks) (Json.obj fs2) := by
    intro ks
    have hfind : ∀ k : String,
        (renderFields (some ks) fs1).find? (fun kv => kv.1 == k) =
        (renderFields (some ks) fs2).find? (fun kv => kv.1 == k) := by
      intro k
      rw [renderFields_eq_map, renderFields_eq_map]
      refine find_key_eq_of_perm k (hperm.map _) ?_
      have : (fs1.map fun kv => (kv.1, renderJson (some ks) kv.2)).map Prod.fst =
          fs1.map Prod.fst := by
        rw [List.map_map]; rfl
      rw [this]
      exact hnodup
    have hsel : (ks.filterMap fun k => (renderFields (some ks) fs1).find? fun kv => kv.1 == k) =
        ks.filterMap fun k => (renderFields (some ks) fs2).find? fun kv => kv.1 == k := by
      have : (fun k => (renderFields (some ks) fs1).find? fun kv => kv.1 == k) =
          fun k => (renderFields (some ks) fs2).find? fun kv => kv.1 == k := funext hfind
      rw [this]
    simp only [renderJson]
    rw [hsel]
  unfold generateCacheKey
  rw [hkeys, hrender]

/-- Witness for C9: the spec's own example with payloads of two fields in
swapped insertion order. -/
theorem signature_order_independence_witness :
    (([("a", Json.num 1), ("b", Json.num 2)] : List (String × Json)).Perm
        [("b", Json.num 2), ("a", Json.num 1)] ∧
     (([("a", Json.num 1), ("b", Json.num 2)] : List (String × Json)).map Prod.fst).Nodup) ∧
    generateCacheKey "x" (Json.obj [("a", Json.num 1), ("b", Json.num 2)]) =
      generateCacheKey "x" (Json.obj [("b", Json.num 2), ("a", Json.num 1)]) :=
  ⟨⟨List.Perm.swap ("b", Json.num 2) ("a", Json.num 1) [], by decide⟩,
   signature_order_independence "x" _ _
     (List.Perm.swap ("b", Json.num 2) ("a", Json.num 1) []) (by decide)⟩

/-- The Card interface of src/types/index.ts. -/
structure Card where
  id : String
  reference : String
  title : String
  description : String
  columnId : String
  labels : List String
  assignees : List String
  repository : Option String
  order : Int
  createdAt : Nat
  updatedAt : Nat
deriving DecidableEq, Repr

/-- An optional JSON object field: present properties produce one field,
absent (undefined) properties are dropped by JSON.stringify. -/
def optField (k : String) : Option Json → List (String × Json)
  | some j => [(k, j)]
  | none => []

/-- The JSON object fields of a Card, in declaration (insertion) order. -/
def cardFields (c : Card) : List (String × Json) :=
  [("id", Json.str c.id), ("reference", Json.str c.reference), ("title", Json.str c.title),
   ("description", Json.str c.description), ("columnId", Json.str c.columnId),
   ("labels", Json.arr (c.labels.map Json.str)),
   ("assignees", Json.arr (c.assignees.map Json.str))] ++
  optField "repository" (c.repository.map Json.str) ++
  [("order", Json.num c.order), ("createdAt", Json.num (c.createdAt : Int)),
   ("updatedAt", Json.num (c.updatedAt : Int))]

def cardToJson (c : Card) : Json := Json.obj (cardFields c)

/-- Partial(Card): the candidate card passed to checkForDuplicates; every
property optional, absent ones dropped from its JSON form. -/
structure CardDraft where
  id : Option String
  reference : Option String
  title : Option String
  description : Option String
  columnId : Option String
  labels : Option (List String)
  assignees : Option (List String)
  repository : Option String
  order : Option Int
  createdAt : Option Nat
  updatedAt : Option Nat
deriving DecidableEq, Repr

def draftFields (d : CardDraft) : List (String × Json) :=
  optField "id" (d.id.map Json.str) ++
  optField "reference" (d.reference.map Json.str) ++
  optField "title" (d.title.map Json.str) ++
  optField "description" (d.description.map Json.str) ++
  optField "columnId" (d.columnId.map Json.str) ++
  optField "labels" (d.labels.map fun l => Json.arr (l.map Json.str)) ++
  optField "assignees" (d.assignees.map fun l => Json.arr (l.map Json.str)) ++
  optField "repository" (d.repository.map Json.str) ++
  optField "order" (d.order.map Json.num) ++
  optField "createdAt" (d.createdAt.map fun n => Json.num (n : Int)) ++
  optField "updatedAt" (d.updatedAt.map fun n => Json.num (n : Int))

def cardDraftToJson (d : CardDraft) : Json := Json.obj (draftFields d)

/-- The property names a Card (or Partial Card) JSON object can carry. -/
def cardKeyNames : List String :=
  ["id", "reference", "title", "description", "columnId", "labels", "assignees",
   "repository", "order", "createdAt", "updatedAt"]

theorem mem_optField {kv : String × Json} {k : String} {v : Option Json}
    (h : kv ∈ optField k v) : kv.1 = k := by
  cases v with
  | none => exact absurd h (List.not_mem_nil kv)
  | some j =>
    rw [optField] at h
    rw [List.mem_singleton.mp h]

theorem cardFields_key_mem (c : Card) : ∀ kv ∈ cardFields c, kv.1 ∈ cardKeyNames := by
  intro kv hkv
  simp only [cardFields, List.mem_append, List.mem_cons, List.not_mem_nil, or_false] at hkv
  casesm* _ ∨ _
  all_goals rename_i h
  all_goals first
    | (rw [mem_optField h]; decide)
    | simp [h, cardKeyNames]

theorem draftFields_key_mem (d : CardDraft) : ∀ kv ∈ draftFields d, kv.1 ∈ cardKeyNames := by
  intro kv hkv
  simp only [draftFields, List.mem_append] at hkv
  rcases hkv with ((((((((((h | h) | h) | h) | h) | h) | h) | h) | h) | h) | h) <;>
    (rw [mem_optField h]; decide)

theorem ne_of_mem_disjoint {a b : String} {l1 l2 : List String}
    (h1 : a ∈ l1) (h2 : b ∈ l2)
    (hdisj : (l1.all fun x => l2.all fun y => x != y) = true) : a ≠ b := by
  intro he
  have hx := List.all_eq_true.mp hdisj a h1
  have hy := List.all_eq_true.mp hx b h2
  rw [he] at hy
  simp at hy

/-- A whitelist that names none of an object's properties serialises the
object as the empty object. -/
theorem renderObj_empty (ks : List String) (fs : List (String × Json))
    (h : ∀ kv ∈ fs, ∀ k ∈ ks, kv.1 ≠ k) :
    renderJson (some ks) (Json.obj fs) = "{}" := by
  simp only [renderJson]
  have hsel : (ks.filterMap fun k => (renderFields (some ks) fs).find? fun kv => kv.1 == k)
      = [] := by
    rw [List.filterMap_eq_nil_iff]
    intro k hk
    apply List.find?_eq_none.mpr
    intro kv hkv
    rw [renderFields_eq_map] at hkv
    rcases List.mem_map.mp hkv with ⟨kv0, hkv0, rfl⟩
    simp only [beq_iff_eq]
    exact h kv0 hkv0 k hk
  rw [hsel]
  rfl

/-- The whitelist generated for the duplicate-check request:
`Object.keys({newCard, existingCards, cardIds}).sort()`. -/
def dupWhitelist : List String := ["cardIds", "existingCards", "newCard"]

theorem cardToJson_render_empty (c : Card) :
    renderJson (some dupWhitelist) (cardToJson c) = "{}" :=
  renderObj_empty _ _ fun kv hkv k hk =>
    ne_of_mem_disjoint (cardFields_key_mem c kv hkv) hk (by decide)

theorem cardDraftToJson_render_empty (d : CardDraft) :
    renderJson (some dupWhitelist) (cardDraftToJson d) = "{}" :=
  renderObj_empty _ _ fun kv hkv k hk =>
    ne_of_mem_disjoint (draftFields_key_mem d kv hkv) hk (by decide)

/-- The request body built by checkForDuplicates:
`{ newCard, existingCards: cardsToCheck, cardIds: cardsToCheck.map(card => card.id) }`. -/
def dupRequestData (newCard : CardDraft) (cardsToCheck : List Card) : Json :=
  Json.obj [("newCard", cardDraftToJson newCard),
            ("existingCards", Json.arr (cardsToCheck.map cardToJson)),
            ("cardIds", Json.arr (cardsToCheck.map fun card => Json.str card.id))]

theorem renderElems_eq_map (wl : Option (List String)) :
    ∀ l : List Json, renderElems wl l = l.map (renderJson wl) := by
  intro l
  induction l with
  | nil => rfl
  | cons x xs ih =>
    rw [show renderElems wl (x :: xs) = renderJson wl x :: renderElems wl xs from rfl, ih,
      List.map_cons]

theorem map_const_replicate {α : Type} (s : String) :
    ∀ l : List α, l.map (fun _ => s) = List.replicate l.length s := by
  intro l
  induction l with
  | nil => rfl
  | cons x xs ih => rw [List.map_cons, ih, List.length_cons, List.replicate_succ]

theorem render_dupShape (A B C : Json) :
    renderJson (some dupWhitelist)
        (Json.obj [("newCard", A), ("existingCards", B), ("cardIds", C)]) =
      "\x7b" ++ String.intercalate ","
        ["\"cardIds\":" ++ renderJson (some dupWhitelist) C,
         "\"existingCards\":" ++ renderJson (some dupWhitelist) B,
         "\"newCard\":" ++ renderJson (some dupWhitelist) A] ++ "\x7d" := rfl

/-- C10 key lemma: the duplicate-check cache key depends only on the id
list of the capped existing cards; in particular every property of the
candidate card and of the existing-card objects is dropped by the
replacer-array serialisation. -/
theorem dupRequestKey_eq (n1 n2 : CardDraft) (t1 t2 : List Card)
    (hids : t1.map Card.id = t2.map Card.id) :
    generateCacheKey "check-duplicates" (dupRequestData n1 t1) =
      generateCacheKey "check-duplicates" (dupRequestData n2 t2) := by
  have hlen : t1.length = t2.length := by
    have h := congrArg List.length hids
    simpa using h
  have hsorted : ∀ (n : CardDraft) (t : List Card),
      jsSortStrings (topLevelKeys (dupRequestData n t)) = dupWhitelist := fun n t => by
    show jsSortStrings ["newCard", "existingCards", "cardIds"] = dupWhitelist
    decide
  have hA : renderJson (some dupWhitelist) (cardDraftToJson n1) =
      renderJson (some dupWhitelist) (cardDraftToJson n2) := by
    rw [cardDraftToJson_render_empty, cardDraftToJson_render_empty]
  have hB : renderJson (some dupWhitelist) (Json.arr (t1.map cardToJson)) =
      renderJson (some dupWhitelist) (Json.arr (t2.map cardToJson)) := by
    simp only [renderJson]
    rw [renderElems_eq_map, renderElems_eq_map, List.map_map, List.map_map]
    have h1 : t1.map (renderJson (some dupWhitelist) ∘ cardToJson) = t1.map fun _ => "{}" :=
      List.map_congr_left fun c _ => cardToJson_render_empty c
    have h2 : t2.map (renderJson (some dupWhitelist) ∘ cardToJson) = t2.map fun _ => "{}" :=
      List.map_congr_left fun c _ => cardToJson_render_empty c
    rw [h1, h2, map_const_replicate, map_const_replicate, hlen]
  have hC : renderJson (some dupWhitelist) (Json.arr (t1.map fun card => Json.str card.id)) =
      renderJson (some dupWhitelist) (Json.arr (t2.map fun card => Json.str card.id)) := by
    simp only [renderJson]
    rw [renderElems_eq_map, renderElems_eq_map]
    have e1 : ∀ t : List Card,
        (t.map fun card => Json.str card.id).map (renderJson (some dupWhitelist)) =
          (t.map Card.id).map jsQuote := fun t => by
      rw [List.map_map, List.map_map]
      rfl
    rw [e1, e1, hids]
  unfold generateCacheKey
  rw [hsorted n1 t1, hsorted n2 t2]
  show "check-duplicates" ++ ":" ++
      renderJson (some dupWhitelist) (dupRequestData n1 t1) =
    "check-duplicates" ++ ":" ++
      renderJson (some dupWhitelist) (dupRequestData n2 t2)
  unfold dupRequestData
  rw [render_dupShape, render_dupShape, hA, hB, hC]

/-- An entry of the module-level in-memory request cache. -/
structure CacheEntry (α : Type) where
  data : α
  timestamp : Nat
deriving DecidableEq, Repr

/-- JS `Map.prototype.get` on a key-ordered association list. -/
def mapGet {α : Type} (m : List (String × α)) (k : String) : Option α :=
  (m.find? fun kv => kv.1 == k).map Prod.snd

/-- JS `Map.prototype.set`: overwrite an existing key in place, otherwise
append at the end. -/
def mapSet {α : Type} : List (String × α) → String → α → List (String × α)
  | [], k, v => [(k, v)]
  | e :: rest, k, v => if e.1 == k then (k, v) :: rest else e :: mapSet rest k v

theorem mapGet_mapSet_self {α : Type} :
    ∀ (m : List (String × α)) (k : String) (v : α), mapGet (mapSet m k v) k = some v := by
  intro m k v
  induction m with
  | nil => simp [mapGet, mapSet, List.find?]
  | cons e rest ih =>
    by_cases h : (e.1 == k) = true
    · rw [mapSet, if_pos h]
      simp [mapGet, List.find?]
    · rw [mapSet, if_neg h]
      simp only [mapGet, List.find?, (Bool.not_eq_true _).mp h] at ih ⊢
      exact ih

/-- isCacheValid from ai.ts: `Date.now() - cacheEntry.timestamp < CACHE_TTL`
(the model passes the call's clock reading explicitly; clocks are Nat). -/
def isCacheValid {α : Type} (cacheEntry : CacheEntry α) (now : Nat) : Bool :=
  decide (now - cacheEntry.timestamp < CACHE_TTL)

/-- DuplicateCheck from src/types/index.ts. -/
structure DuplicateCheck where
  duplicates : List Card
  reason : Option String
deriving DecidableEq, Repr

/-- The cache state touched by checkForDuplicates: the module-level
requestCache Map, restricted to its check-duplicates entries (which are
disjoint from the generate-clusters entries by their endpoint prefix). -/
structure DupState where
  requestCache : List (String × CacheEntry DuplicateCheck)
deriving DecidableEq, Repr

/-- The capped recent-card window of checkForDuplicates:
`existingCards.length > MAX_BATCH_SIZE ? existingCards.slice(-MAX_BATCH_SIZE) : existingCards`. -/
def cardsToCheckOf (existingCards : List Card) : List Card :=
  if existingCards.length > MAX_BATCH_SIZE then
    existingCards.drop (existingCards.length - MAX_BATCH_SIZE)
  else existingCards

/-- The cache key computed by checkForDuplicates for given inputs. -/
def dupCacheKey (newCard : CardDraft) (existingCards : List Card) : String :=
  generateCacheKey "check-duplicates" (dupRequestData newCard (cardsToCheckOf existingCards))

/-- The fetch/parse/store step of checkForDuplicates.  `response` is the
outcome of this call's single network request: `error` covers a network
rejection, a non-ok HTTP status and an unparseable body, all of which
throw into the surrounding catch, whose handler returns `{duplicates: []}`
without writing the cache. -/
def dupFetch (response : Except Unit DuplicateCheck) (cacheKey : String)
    (st : DupState) (now : Nat) : DuplicateCheck × DupState × Nat :=
  match response with
  | .error _ => ({ duplicates := [], reason := none }, st, 1)
  | .ok result => (result, ⟨mapSet st.requestCache cacheKey ⟨result, now⟩⟩, 1)

/-- checkForDuplicates from ai.ts as a state-passing function, returning
(resolved value, new cache state, number of collaborator requests). -/
def checkForDuplicates (response : Except Unit DuplicateCheck) (newCard : CardDraft)
    (existingCards : List Card) (st : DupState) (now : Nat) :
    DuplicateCheck × DupState × Nat :=
  match mapGet st.requestCache (dupCacheKey newCard existingCards) with
  | some cachedResult =>
    if isCacheValid cachedResult now then (cachedResult.data, st, 0)
    else dupFetch response (dupCacheKey newCard existingCards) st now
  | none => dupFetch response (dupCacheKey newCard existingCards) st now

/-- A valid in-memory cache hit for a duplicate-check key. -/
def dupValidHit (st : DupState) (cacheKey : String) (now : Nat) : Prop :=
  ∃ e, mapGet st.requestCache cacheKey = some e ∧ isCacheValid e now = true

/-- C6: duplicate-check is fail-open: whenever the collaborator call made
by checkForDuplicates fails (network rejection, non-success status or
parse failure), checkForDuplicates resolves — with an empty duplicates
list, an unchanged cache and exactly the one failed request — rather than
rejecting.  (The hypothesis states that a collaborator call is made at
all, i.e. the cache does not answer the request.) -/
theorem duplicate_check_fail_open (newCard : CardDraft) (existingCards : List Card)
    (st : DupState) (now : Nat)
    (hmiss : ¬ dupValidHit st (dupCacheKey newCard existingCards) now) :
    checkForDuplicates (.error ()) newCard existingCards st now =
      ({ duplicates := [], reason := none }, st, 1) := by
  unfold checkForDuplicates
  cases hg : mapGet st.requestCache (dupCacheKey newCard existingCards) with
  | none => rfl
  | some e =>
    have hv : isCacheValid e now = false := by
      cases hiv : isCacheValid e now
      · rfl
      · exact absurd ⟨e, hg, hiv⟩ hmiss
    simp only [hg, hv]
    rfl

/-- Witness for C6 at a concrete input: empty cache, one existing card. -/
theorem duplicate_check_fail_open_witness :
    (¬ dupValidHit ⟨[]⟩
        (dupCacheKey ⟨none, none, some "t", none, none, none, none, none, none, none, none⟩
          [Card.mk "a" "" "t" "" "col" [] [] none 0 0 0]) 5) ∧
    checkForDuplicates (.error ())
        ⟨none, none, some "t", none, none, none, none, none, none, none, none⟩
        [Card.mk "a" "" "t" "" "col" [] [] none 0 0 0] ⟨[]⟩ 5 =
      ({ duplicates := [], reason := none }, ⟨[]⟩, 1) :=
  ⟨fun h => by rcases h with ⟨e, he, _⟩; exact Option.noConfusion he,
   duplicate_check_fail_open _ _ _ _
     fun h => by rcases h with ⟨e, he, _⟩; exact Option.noConfusion he⟩

theorem checkForDuplicates_stores (d : DuplicateCheck) (newCard : CardDraft)
    (existingCards : List Card) (st : DupState) (now : Nat) (r : DuplicateCheck)
    (st' : DupState) (c : Nat)
    (h : checkForDuplicates (.ok d) newCard existingCards st now = (r, st', c)) :
    ∃ ts, mapGet st'.requestCache (dupCacheKey newCard existingCards) = some ⟨r, ts⟩ := by
  unfold checkForDuplicates at h
  cases hg : mapGet st.requestCache (dupCacheKey newCard existingCards) with
  | none =>
    rw [hg] at h
    have hr : r = d := congrArg Prod.fst h.symm
    have hst : st' = DupState.mk
        (mapSet st.requestCache (dupCacheKey newCard existingCards) ⟨d, now⟩) :=
      (congrArg (fun p => p.2.1) h).symm
    refine ⟨now, ?_⟩
    rw [hst, hr]
    exact mapGet_mapSet_self _ _ _
  | some e =>
    rw [hg] at h
    have h2 : (if isCacheValid e now then (e.data, st, 0)
        else dupFetch (.ok d) (dupCacheKey newCard existingCards) st now) = (r, st', c) := h
    by_cases hv : isCacheValid e now = true
    · rw [if_pos hv] at h2
      have hr : r = e.data := congrArg Prod.fst h2.symm
      have hst : st' = st := (congrArg (fun p => p.2.1) h2).symm
      refine ⟨e.timestamp, ?_⟩
      rw [hst, hg, hr]
    · rw [if_neg hv] at h2
      have hr : r = d := congrArg Prod.fst h2.symm
      have hst : st' = DupState.mk
          (mapSet st.requestCache (dupCacheKey newCard existingCards) ⟨d, now⟩) :=
        (congrArg (fun p => p.2.1) h2).symm
      refine ⟨now, ?_⟩
      rw [hst, hr]
      exact mapGet_mapSet_self _ _ _

/-- C10: the duplicate-check cache key depends only on the capped
existing-card id list: the replacer array passed to JSON.stringify drops
every property of the nested newCard object and of each nested
existing-card object, so two requests with equal capped id lists share a
cache key even with different candidate cards, and — after a first call
that received a collaborator response — a second such call within the TTL
window is answered from the cache with zero collaborator requests. -/
theorem dup_cache_key_ignores_card_content
    (d : DuplicateCheck) (n1 n2 : CardDraft) (l1 l2 : List Card)
    (st0 st1 : DupState) (t1 t2 : Nat) (r1 : DuplicateCheck) (c1 : Nat)
    (hids : (cardsToCheckOf l1).map Card.id = (cardsToCheckOf l2).map Card.id)
    (h1 : checkForDuplicates (.ok d) n1 l1 st0 t1 = (r1, st1, c1)) :
    dupCacheKey n1 l1 = dupCacheKey n2 l2 ∧
    ∃ ts, mapGet st1.requestCache (dupCacheKey n1 l1) = some ⟨r1, ts⟩ ∧
      (t2 - ts < CACHE_TTL → ∀ response2 : Except Unit DuplicateCheck,
        checkForDuplicates response2 n2 l2 st1 t2 = (r1, st1, 0)) := by
  have hkey : dupCacheKey n1 l1 = dupCacheKey n2 l2 := dupRequestKey_eq n1 n2 _ _ hids
  obtain ⟨ts, hts⟩ := checkForDuplicates_stores d n1 l1 st0 t1 r1 st1 c1 h1
  refine ⟨hkey, ts, hts, fun httl response2 => ?_⟩
  unfold checkForDuplicates
  rw [← hkey, hts]
  have hvalid : isCacheValid (⟨r1, ts⟩ : CacheEntry DuplicateCheck) t2 = true := by
    rw [isCacheValid]
    exact decide_eq_true httl
  simp only [hvalid]
  rfl

/-- Witness for C10: same single existing card, two candidate cards that
differ in their title, empty initial cache. -/
theorem dup_cache_key_ignores_card_content_witness :
    ((cardsToCheckOf [Card.mk "a" "" "t" "" "col" [] [] none 0 0 0]).map Card.id =
      (cardsToCheckOf [Card.mk "a" "" "t" "" "col" [] [] none 0 0 0]).map Card.id ∧
     checkForDuplicates (.ok ⟨[], none⟩)
        ⟨none, none, some "candidate one", none, none, none, none, none, none, none, none⟩
        [Card.mk "a" "" "t" "" "col" [] [] none 0 0 0] ⟨[]⟩ 0 =
      (⟨[], none⟩,
       ⟨mapSet []
         (dupCacheKey
           ⟨none, none, some "candidate one", none, none, none, none, none, none, none, none⟩
           [Card.mk "a" "" "t" "" "col" [] [] none 0 0 0])
         ⟨⟨[], none⟩, 0⟩⟩, 1)) ∧
    (dupCacheKey
        ⟨none, none, some "candidate one", none, none, none, none, none, none, none, none⟩
        [Card.mk "a" "" "t" "" "col" [] [] none 0 0 0] =
      dupCacheKey
        ⟨none, none, some "candidate two", none, none, none, none, none, none, none, none⟩
        [Card.mk "a" "" "t" "" "col" [] [] none 0 0 0] ∧
     ∃ ts, mapGet (DupState.mk (mapSet []
         (dupCacheKey
           ⟨none, none, some "candidate one", none, none, none, none, none, none, none, none⟩
           [Card.mk "a" "" "t" "" "col" [] [] none 0 0 0])
         ⟨⟨[], none⟩, 0⟩)).requestCache
         (dupCacheKey
           ⟨none, none, some "candidate one", none, none, none, none, none, none, none, none⟩
           [Card.mk "a" "" "t" "" "col" [] [] none 0 0 0]) = some ⟨⟨[], none⟩, ts⟩ ∧
       (7 - ts < CACHE_TTL → ∀ response2 : Except Unit DuplicateCheck,
         checkForDuplicates response2
           ⟨none, none, some "candidate two", none, none, none, none, none, none, none, none⟩
           [Card.mk "a" "" "t" "" "col" [] [] none 0 0 0]
           ⟨mapSet []
             (dupCacheKey
               ⟨none, none, some "candidate one", none, none, none, none, none, none, none,
                none⟩
               [Card.mk "a" "" "t" "" "col" [] [] none 0 0 0])
             ⟨⟨[], none⟩, 0⟩⟩ 7 =
           (⟨[], none⟩,
            ⟨mapSet []
              (dupCacheKey
                ⟨none, none, some "candidate one", none, none, none, none, none, none, none,
                 none⟩
                [Card.mk "a" "" "t" "" "col" [] [] none 0 0 0])
              ⟨⟨[], none⟩, 0⟩⟩, 0))) :=
  ⟨⟨rfl, rfl⟩,
   dup_cache_key_ignores_card_content ⟨[], none⟩
     ⟨none, none, some "candidate one", none, none, none, none, none, none, none, none⟩
     ⟨none, none, some "candidate two", none, none, none, none, none, none, none, none⟩
     [Card.mk "a" "" "t" "" "col" [] [] none 0 0 0]
     [Card.mk "a" "" "t" "" "col" [] [] none 0 0 0]
     ⟨[]⟩ _ 0 7 ⟨[], none⟩ 1 rfl rfl⟩

/-- A parsed per-batch collaborator response body; `clusters = none`
models a body whose `clusters` field is absent or not an array (which the
merge loop skips — it is not an error). -/
structure BatchResp where
  clusters : Option (List Cluster)
deriving DecidableEq, Repr

/-- The value generateClusters resolves with and caches.  The
small-dataset path returns the parsed response body verbatim
(`fromResponse`); the batched path produces a `{clusters: finalClusters}`
object (`analysis`), and the catch handler returns `{clusters: []}`
(`analysis []`). -/
inductive GCData where
  | fromResponse : BatchResp → GCData
  | analysis : List FinalCluster → GCData
deriving DecidableEq, Repr

structure BatchInfo where
  current : Nat
  total : Nat
deriving DecidableEq, Repr

/-- A network request issued by generateClusters: the batched branch sends
the batch cards, the accumulated cluster names and the 1-based batch
position; the small branch sends only the cards. -/
inductive GCRequest where
  | batched : List Card → List (Option String) → BatchInfo → GCRequest
  | small : List Card → GCRequest
deriving DecidableEq, Repr

/-- State touched by generateClusters: the generate-clusters entries of
the module-level requestCache, plus the single localStorage slot
`kanban-clippy-clusters` (generateLocalStorageKey ignores the card
signature) holding the stored `{data, timestamp}` object (JSON round
trips are identities on these values). -/
structure GCState where
  requestCache : List (String × CacheEntry GCData)
  localStore : Option (CacheEntry GCData)
deriving DecidableEq, Repr

/-- `const cardsSignature = cards.map(c => c.id).sort().join(',')`. -/
def cardsSignatureOf (cards : List Card) : String :=
  String.intercalate "," (jsSortStrings (cards.map Card.id))

/-- The in-memory cache key of generateClusters for a card list. -/
def gcCacheKey (cards : List Card) : String :=
  generateCacheKey "generate-clusters"
    (Json.obj [("cardsSignature", Json.str (cardsSignatureOf cards))])

/-- getClustersFromLocalStorage: read the single slot and apply its own
TTL check (the same CACHE_TTL); absent or corrupt data is a miss. -/
def getClustersFromLocalStorage (st : GCState) (now : Nat) : Option GCData :=
  match st.localStore with
  | none => none
  | some e => if now - e.timestamp < CACHE_TTL then some e.data else none

/-- `accumulatedClusters.map(c => c.clusterName || c.title)`: JS `||`
yields the title value (possibly undefined) when clusterName is falsy. -/
def existingClusterNamesOf (acc : List Cluster) : List (Option String) :=
  acc.map fun c => if c.clusterName != "" then some c.clusterName else c.title

/-- The sequential fetch-and-merge loop of the batched branch: one request
per batch carrying the accumulated cluster names and the 1-based batch
position; each response folds into the accumulator via processBatchResult;
a failed response throws, aborting the remaining batches.  Returns the
loop outcome and the number of requests issued. -/
def runBatchesAux (oracle : GCRequest → Except Unit BatchResp) (total : Nat) :
    List (List Card) → Nat → List Cluster → Except Unit (List Cluster) × Nat
  | [], _, acc => (.ok acc, 0)
  | batch :: rest, i, acc =>
    match oracle (.batched batch (existingClusterNamesOf acc) ⟨i + 1, total⟩) with
    | .error e => (.error e, 1)
    | .ok result =>
      let next :=
        runBatchesAux oracle total rest (i + 1) (processBatchResult i acc result.clusters)
      (next.1, next.2 + 1)

def runBatches (oracle : GCRequest → Except Unit BatchResp) (batches : List (List Card)) :
    Except Unit (List Cluster) × Nat :=
  runBatchesAux oracle batches.length batches 0 []

/-- The network portion of generateClusters, reached when every consulted
cache tier missed: batched or small fetch, then write-through of the
result to both the in-memory cache and localStorage. -/
def generateClustersNetwork (oracle : GCRequest → Except Unit BatchResp) (cards : List Card)
    (cacheKey : String) (st : GCState) (now : Nat) :
    Except Unit (GCData × GCState) × Nat :=
  if cards.length > MAX_BATCH_SIZE then
    match runBatches oracle (chunkArray cards MAX_BATCH_SIZE) with
    | (.error e, n) => (.error e, n)
    | (.ok acc, n) =>
      let result := GCData.analysis (acc.map (finalizeCluster now))
      (.ok (result, ⟨mapSet st.requestCache cacheKey ⟨result, now⟩, some ⟨result, now⟩⟩), n)
  else
    match oracle (.small cards) with
    | .error _ => (.error (), 1)
    | .ok resp =>
      let result := GCData.fromResponse resp
      (.ok (result, ⟨mapSet st.requestCache cacheKey ⟨result, now⟩, some ⟨result, now⟩⟩), 1)

/-- The localStorage tier of generateClusters: a hit is returned and also
written back into the in-memory cache; a miss goes to the network. -/
def generateClustersLocalTier (oracle : GCRequest → Except Unit BatchResp) (cards : List Card)
    (cacheKey : String) (st : GCState) (now : Nat) :
    Except Unit (GCData × GCState) × Nat :=
  match getClustersFromLocalStorage st now with
  | some d => (.ok (d, ⟨mapSet st.requestCache cacheKey ⟨d, now⟩, st.localStore⟩), 0)
  | none => generateClustersNetwork oracle cards cacheKey st now

/-- The try-block of generateClusters: unless forceRefresh is set, consult
the in-memory tier, then localStorage, then the network. -/
def generateClustersTry (oracle : GCRequest → Except Unit BatchResp) (cards : List Card)
    (forceRefresh : Bool) (st : GCState) (now : Nat) :
    Except Unit (GCData × GCState) × Nat :=
  if forceRefresh then generateClustersNetwork oracle cards (gcCacheKey cards) st now
  else
    match mapGet st.requestCache (gcCacheKey cards) with
    | some cachedResult =>
      if isCacheValid cachedResult now then (.ok (cachedResult.data, st), 0)
      else generateClustersLocalTier oracle cards (gcCacheKey cards) st now
    | none => generateClustersLocalTier oracle cards (gcCacheKey cards) st now

/-- generateClusters from ai.ts: the whole body sits in a try whose catch
logs and returns `{clusters: []}`.  At every raise point no cache write
has happened yet, so on failure the state is the caller's. -/
def generateClusters (oracle : GCRequest → Except Unit BatchResp) (cards : List Card)
    (forceRefresh : Bool) (st : GCState) (now : Nat) : GCData × GCState × Nat :=
  match generateClustersTry oracle cards forceRefresh st now with
  | (.ok (d, st2), n) => (d, st2, n)
  | (.error _, n) => (GCData.analysis [], st, n)

/-- A concrete 51-card board (one more than MAX_BATCH_SIZE, so the
batched branch with two batches is taken). -/
def sampleCard (s : String) : Card :=
  ⟨s, "", "", "", "", [], [], none, 0, 0, 0⟩

def cards51 : List Card := (List.range 51).map fun i => sampleCard (Nat.repr i)

def failOracle : GCRequest → Except Unit BatchResp := fun _ => .error ()

def okOracle : GCRequest → Except Unit BatchResp := fun _ => .ok ⟨some []⟩

/-- C1 (amended): when a per-batch collaborator request fails, the
failure aborts the remaining batches and discards the partial
accumulator, but generateClusters RESOLVES with the empty analysis
`{clusters: []}` and the caller's unchanged cache state — it does not
reject. -/
theorem clustering_failure_resolves_empty (oracle : GCRequest → Except Unit BatchResp)
    (cards : List Card) (forceRefresh : Bool) (st : GCState) (now : Nat)
    (hfail : (generateClustersTry oracle cards forceRefresh st now).1 = .error ()) :
    generateClusters oracle cards forceRefresh st now =
      (GCData.analysis [], st, (generateClustersTry oracle cards forceRefresh st now).2) := by
  unfold generateClusters
  cases htry : generateClustersTry oracle cards forceRefresh st now with
  | mk r n =>
    rw [htry] at hfail
    cases r with
    | ok v => exact absurd hfail (by simp)
    | error e => rfl

/-- Witness for C1 (amended) at the concrete 51-card input whose first
batch request fails. -/
theorem clustering_failure_resolves_empty_witness :
    ((generateClustersTry failOracle cards51 false ⟨[], none⟩ 0).1 = .error ()) ∧
    generateClusters failOracle cards51 false ⟨[], none⟩ 0 =
      (GCData.analysis [], ⟨[], none⟩,
        (generateClustersTry failOracle cards51 false ⟨[], none⟩ 0).2) :=
  ⟨rfl, clustering_failure_resolves_empty failOracle cards51 false ⟨[], none⟩ 0 rfl⟩

/-- C1 counterexample: at 51 cards (2 batches) with the first batch
request failing, the try-block does throw (aborting the second batch:
only 1 request is issued), but generateClusters resolves with the value
`{clusters: []}` instead of surfacing the failure as a rejection. -/
theorem clustering_fail_closed_counterexample :
    (generateClustersTry failOracle cards51 false ⟨[], none⟩ 0).1 = .error () ∧
    (chunkArray cards51 MAX_BATCH_SIZE).length = 2 ∧
    generateClusters failOracle cards51 false ⟨[], none⟩ 0 =
      (GCData.analysis [], ⟨[], none⟩, 1) :=
  ⟨rfl, rfl, rfl⟩

theorem generateClustersNetwork_cached (oracle : GCRequest → Except Unit BatchResp)
    (cards : List Card) (key : String) (st : GCState) (now : Nat)
    (d : GCData) (st2 : GCState) (n : Nat)
    (h : generateClustersNetwork oracle cards key st now = (.ok (d, st2), n)) :
    mapGet st2.requestCache key = some ⟨d, now⟩ := by
  unfold generateClustersNetwork at h
  by_cases hlen : cards.length > MAX_BATCH_SIZE
  · rw [if_pos hlen] at h
    cases hrun : runBatches oracle (chunkArray cards MAX_BATCH_SIZE) with
    | mk r n' =>
      rw [hrun] at h
      cases r with
      | error e => exact absurd (congrArg Prod.fst h) (by simp)
      | ok acc =>
        have hinj := Except.ok.inj (congrArg Prod.fst h)
        have hst : st2 = GCState.mk (mapSet st.requestCache key
            ⟨GCData.analysis (acc.map (finalizeCluster now)), now⟩)
            (some ⟨GCData.analysis (acc.map (finalizeCluster now)), now⟩) :=
          (congrArg Prod.snd hinj).symm
        rw [hst, show d = GCData.analysis (acc.map (finalizeCluster now)) from
          (congrArg Prod.fst hinj).symm]
        exact mapGet_mapSet_self _ _ _
  · rw [if_neg hlen] at h
    cases horc : oracle (.small cards) with
    | error e =>
      rw [horc] at h
      exact absurd (congrArg Prod.fst h) (by simp)
    | ok resp =>
      rw [horc] at h
      have hinj := Except.ok.inj (congrArg Prod.fst h)
      have hst : st2 = GCState.mk (mapSet st.requestCache key
          ⟨GCData.fromResponse resp, now⟩) (some ⟨GCData.fromResponse resp, now⟩) :=
        (congrArg Prod.snd hinj).symm
      rw [hst, show d = GCData.fromResponse resp from (congrArg Prod.fst hinj).symm]
      exact mapGet_mapSet_self _ _ _

theorem generateClustersLocalTier_cached (oracle : GCRequest → Except Unit BatchResp)
    (cards : List Card) (key : String) (st : GCState) (now : Nat)
    (d : GCData) (st2 : GCState) (n : Nat)
    (h : generateClustersLocalTier oracle cards key st now = (.ok (d, st2), n)) :
    mapGet st2.requestCache key = some ⟨d, now⟩ := by
  unfold generateClustersLocalTier at h
  cases hl : getClustersFromLocalStorage st now with
  | none =>
    rw [hl] at h
    exact generateClustersNetwork_cached oracle cards key st now d st2 n h
  | some dd =>
    rw [hl] at h
    have hinj := Except.ok.inj (congrArg Prod.fst h)
    have hst : st2 = GCState.mk (mapSet st.requestCache key ⟨dd, now⟩) st.localStore :=
      (congrArg Prod.snd hinj).symm
    rw [hst, show d = dd from (congrArg Prod.fst hinj).symm]
    exact mapGet_mapSet_self _ _ _

/-- After any successful completion of generateClusters (cache hit or
network), the in-memory cache holds the returned data under the call's
cache key. -/
theorem generateClustersTry_ok_cached (oracle : GCRequest → Except Unit BatchResp)
    (cards : List Card) (st : GCState) (now : Nat) (d : GCData) (st2 : GCState) (n : Nat)
    (h : generateClustersTry oracle cards false st now = (.ok (d, st2), n)) :
    ∃ ts, mapGet st2.requestCache (gcCacheKey cards) = some ⟨d, ts⟩ := by
  unfold generateClustersTry at h
  have h2 : (match mapGet st.requestCache (gcCacheKey cards) with
      | some cachedResult =>
        if isCacheValid cachedResult now then
          ((.ok (cachedResult.data, st) : Except Unit (GCData × GCState)), 0)
        else generateClustersLocalTier oracle cards (gcCacheKey cards) st now
      | none => generateClustersLocalTier oracle cards (gcCacheKey cards) st now) =
      (.ok (d, st2), n) := h
  cases hg : mapGet st.requestCache (gcCacheKey cards) with
  | none =>
    rw [hg] at h2
    exact ⟨now, generateClustersLocalTier_cached oracle cards _ st now d st2 n h2⟩
  | some e =>
    rw [hg] at h2
    have h3 : (if isCacheValid e now then
        ((.ok (e.data, st) : Except Unit (GCData × GCState)), 0)
      else generateClustersLocalTier oracle cards (gcCacheKey cards) st now) =
        (.ok (d, st2), n) := h2
    by_cases hv : isCacheValid e now = true
    · rw [if_pos hv] at h3
      have hinj := Except.ok.inj (congrArg Prod.fst h3)
      have hst : st2 = st := (congrArg Prod.snd hinj).symm
      refine ⟨e.timestamp, ?_⟩
      rw [hst, hg, show d = e.data from (congrArg Prod.fst hinj).symm]
    · rw [if_neg hv] at h3
      exact ⟨now, generateClustersLocalTier_cached oracle cards _ st now d st2 n h3⟩

/-- C5 (amended): after a first generateClusters call completes
successfully with result `d`, the result sits in the in-memory cache
under the call's key; a second call whose card ids are a permutation of
the first call's (same id set) computes the same key, and — issued within
the TTL window of that entry, with forceRefresh unset — returns the
cached result, leaves the state untouched and invokes the clustering
collaborator ZERO times.  (Across the two calls the collaborator is thus
invoked only by the first call — once per batch, i.e. at most once only
when the list fits in a single batch; see the counterexample for the
claim's "at most once across the two calls".) -/
theorem cache_hit_avoids_network (oracle1 oracle2 : GCRequest → Except Unit BatchResp)
    (cards1 cards2 : List Card) (st0 st1 : GCState) (t1 t2 : Nat) (d : GCData) (n1 : Nat)
    (h1 : generateClustersTry oracle1 cards1 false st0 t1 = (.ok (d, st1), n1))
    (hperm : (cards1.map Card.id).Perm (cards2.map Card.id)) :
    ∃ ts, mapGet st1.requestCache (gcCacheKey cards1) = some ⟨d, ts⟩ ∧
      (t2 - ts < CACHE_TTL →
        generateClusters oracle2 cards2 false st1 t2 = (d, st1, 0)) := by
  obtain ⟨ts, hts⟩ := generateClustersTry_ok_cached oracle1 cards1 st0 t1 d st1 n1 h1
  have hkey : gcCacheKey cards2 = gcCacheKey cards1 := by
    unfold gcCacheKey
    rw [show cardsSignatureOf cards2 = cardsSignatureOf cards1 from
      congrArg (String.intercalate ",") (jsSortStrings_eq_of_perm _ _ hperm.symm)]
  refine ⟨ts, hts, fun httl => ?_⟩
  have hvalid : isCacheValid (⟨d, ts⟩ : CacheEntry GCData) t2 = true := by
    rw [isCacheValid]
    exact decide_eq_true httl
  have htry2 : generateClustersTry oracle2 cards2 false st1 t2 = (.ok (d, st1), 0) := by
    unfold generateClustersTry
    rw [hkey, hts]
    show (if isCacheValid (⟨d, ts⟩ : CacheEntry GCData) t2 then
        ((.ok ((⟨d, ts⟩ : CacheEntry GCData).data, st1) : Except Unit (GCData × GCState)), 0)
      else generateClustersLocalTier oracle2 cards2 (gcCacheKey cards1) st1 t2) =
      (.ok (d, st1), 0)
    rw [if_pos hvalid]
  unfold generateClusters
  rw [htry2]

/-- Witness for C5 (amended): two cards in swapped order, successful
first call, second call 100 ms later. -/
theorem cache_hit_avoids_network_witness :
    (generateClustersTry okOracle [sampleCard "b", sampleCard "a"] false ⟨[], none⟩ 0 =
      (.ok (GCData.fromResponse ⟨some []⟩,
        ⟨mapSet [] (gcCacheKey [sampleCard "b", sampleCard "a"])
           ⟨GCData.fromResponse ⟨some []⟩, 0⟩,
         some ⟨GCData.fromResponse ⟨some []⟩, 0⟩⟩), 1) ∧
     ([sampleCard "b", sampleCard "a"].map Card.id).Perm
       ([sampleCard "a", sampleCard "b"].map Card.id)) ∧
    (∃ ts, mapGet (GCState.mk (mapSet [] (gcCacheKey [sampleCard "b", sampleCard "a"])
          ⟨GCData.fromResponse ⟨some []⟩, 0⟩)
          (some ⟨GCData.fromResponse ⟨some []⟩, 0⟩)).requestCache
        (gcCacheKey [sampleCard "b", sampleCard "a"]) =
          some ⟨GCData.fromResponse ⟨some []⟩, ts⟩ ∧
      (100 - ts < CACHE_TTL →
        generateClusters okOracle [sampleCard "a", sampleCard "b"] false
          ⟨mapSet [] (gcCacheKey [sampleCard "b", sampleCard "a"])
             ⟨GCData.fromResponse ⟨some []⟩, 0⟩,
           some ⟨GCData.fromResponse ⟨some []⟩, 0⟩⟩ 100 =
        (GCData.fromResponse ⟨some []⟩,
         ⟨mapSet [] (gcCacheKey [sampleCard "b", sampleCard "a"])
            ⟨GCData.fromResponse ⟨some []⟩, 0⟩,
          some ⟨GCData.fromResponse ⟨some []⟩, 0⟩⟩, 0))) :=
  ⟨⟨rfl, List.Perm.swap "a" "b" []⟩,
   cache_hit_avoids_network okOracle okOracle
     [sampleCard "b", sampleCard "a"] [sampleCard "a", sampleCard "b"]
     ⟨[], none⟩ _ 0 100 (GCData.fromResponse ⟨some []⟩) 1
     rfl (List.Perm.swap "a" "b" [])⟩

/-- C5 counterexample for the claim as stated: with 51 cards the first
call already invokes the collaborator twice (once per batch), so even
though the second call (same ids, within TTL) invokes it zero times, the
total across the two calls is 2, not at most once. -/
theorem cache_hit_at_most_once_counterexample :
    ((generateClusters okOracle cards51 false ⟨[], none⟩ 0).2.2 = 2 ∧
     (generateClusters okOracle cards51 false
        (generateClusters okOracle cards51 false ⟨[], none⟩ 0).2.1 1).2.2 = 0) ∧
    ¬ ((generateClusters okOracle cards51 false ⟨[], none⟩ 0).2.2 +
       (generateClusters okOracle cards51 false
          (generateClusters okOracle cards51 false ⟨[], none⟩ 0).2.1 1).2.2 ≤ 1) := by
  have hfirst : (generateClusters okOracle cards51 false ⟨[], none⟩ 0).2.2 = 2 := rfl
  have hsecond : (generateClusters okOracle cards51 false
      (generateClusters okOracle cards51 false ⟨[], none⟩ 0).2.1 1).2.2 = 0 := rfl
  exact ⟨⟨hfirst, hsecond⟩, by rw [hfirst, hsecond]; decide⟩

/-- The Cluster interface of src/types/index.ts, as consumed by
ClusterDialog's cache (`id`, `title`, `description`, `cardIds`,
`createdAt`). -/
structure DialogCluster where
  id : String
  title : String
  description : String
  cardIds : List String
  createdAt : Nat
deriving DecidableEq, Repr

/-- CACHE_EXPIRY_TIME from ClusterDialog.tsx: 24 hours in milliseconds. -/
def CACHE_EXPIRY_TIME : Nat := 24 * 60 * 60 * 1000

/-- `clusters.flatMap(c => c.cardIds)` from areClustersCurrent. -/
def clusterCardIdsOf (clusters : List DialogCluster) : List String :=
  (clusters.map DialogCluster.cardIds).flatten

/-- The `cardsAdded` counter of areClustersCurrent: current card ids not
present in the cached cluster-card id set. -/
def cardsAddedOf (clusterCardIds currentCardIds : List String) : Nat :=
  (currentCardIds.filter fun i => !(clusterCardIds.contains i)).length

/-- The `cardsRemoved` counter of areClustersCurrent: cached cluster-card
ids no longer present in the current card set. -/
def cardsRemovedOf (clusterCardIds currentCardIds : List String) : Nat :=
  (clusterCardIds.filter fun i => !(currentCardIds.contains i)).length

/-- `changePercentage = (cardsAdded + cardsRemoved) / totalCards` with
`totalCards = max(clusterCardIds.length, currentCardIds.length)`, as an
exact rational.  (The source divides JS doubles; on the small integer
instances quantified here the double and exact comparisons against the
0.2 threshold agree.) -/
def changePercentageOf (clusters : List DialogCluster) (currentCardIds : List String) : ℚ :=
  ((cardsAddedOf (clusterCardIdsOf clusters) currentCardIds +
      cardsRemovedOf (clusterCardIdsOf clusters) currentCardIds : Nat) : ℚ) /
    ((max (clusterCardIdsOf clusters).length currentCardIds.length : Nat) : ℚ)

/-- areClustersCurrent from ClusterDialog.tsx: `changePercentage < 0.2`.
With both id lists empty the source computes 0/0 = NaN, and `NaN < 0.2`
is false; that case is rendered explicitly. -/
def areClustersCurrent (clusters : List DialogCluster) (currentCardIds : List String) : Bool :=
  if max (clusterCardIdsOf clusters).length currentCardIds.length = 0 then false
  else decide (changePercentageOf clusters currentCardIds < 1/5)

/-- loadClustersFromCache from ClusterDialog.tsx.  `stored` is the parsed
localStorage state: clusters plus timestamp, or `none` when either slot
is missing or unparseable (the catch path).  `currentCardIds` are the
board's current card ids read by areClustersCurrent.  Returns the loaded
clusters — stale data included — and whether the stale flag was set. -/
def loadClustersFromCache (stored : Option (List DialogCluster × Nat)) (now : Nat)
    (currentCardIds : List String) : Option (List DialogCluster) × Bool :=
  match stored with
  | none => (none, false)
  | some (cachedClusters, cachedTimestamp) =>
    if now - cachedTimestamp > CACHE_EXPIRY_TIME ∨
        areClustersCurrent cachedClusters currentCardIds = false then
      (some cachedClusters, true)
    else (some cachedClusters, false)

/-- The cached cluster set of the C7 scenario: one cluster covering the
ten card ids "1".."10". -/
def cachedClustersTen : List DialogCluster :=
  [⟨"c1", "c1", "", ["1", "2", "3", "4", "5", "6", "7", "8", "9", "10"], 0⟩]

/-- The current board ids of the C7 scenario: "8", "9", "10" replaced by
three new ids. -/
def currentIdsReplaced : List String :=
  ["1", "2", "3", "4", "5", "6", "7", "n1", "n2", "n3"]

theorem changePercentage_scenario :
    changePercentageOf cachedClustersTen currentIdsReplaced = 3 / 5 := by
  rw [changePercentageOf,
    show cardsAddedOf (clusterCardIdsOf cachedClustersTen) currentIdsReplaced = 3 by decide,
    show cardsRemovedOf (clusterCardIdsOf cachedClustersTen) currentIdsReplaced = 3 by decide,
    show max (clusterCardIdsOf cachedClustersTen).length currentIdsReplaced.length = 10
      by decide]
  norm_num

/-- C7 counterexample: in the claimed scenario (cached clusters covering
ids 1..10, current list with 3 of them replaced) the staleness check
computes changeRatio = (3 added + 3 removed) / 10 = 0.6, not the claimed
3/10 = 0.3. -/
theorem staleness_ratio_counterexample :
    changePercentageOf cachedClustersTen currentIdsReplaced = 3 / 5 ∧
    changePercentageOf cachedClustersTen currentIdsReplaced ≠ 3 / 10 := by
  refine ⟨changePercentage_scenario, ?_⟩
  rw [changePercentage_scenario]
  norm_num

/-- C7 (amended): in the scenario of the claim the staleness check
computes changeRatio = (3 + 3) / 10 = 0.6, which is ≥ 0.2, so
areClustersCurrent reports the cache outdated, and loadClustersFromCache
still returns the stale cached clusters (flagged stale, whatever the
stored timestamp) rather than discarding them. -/
theorem staleness_detection (ts now : Nat) :
    changePercentageOf cachedClustersTen currentIdsReplaced = 3 / 5 ∧
    ¬ changePercentageOf cachedClustersTen currentIdsReplaced < 1 / 5 ∧
    areClustersCurrent cachedClustersTen currentIdsReplaced = false ∧
    loadClustersFromCache (some (cachedClustersTen, ts)) now currentIdsReplaced =
      (some cachedClustersTen, true) := by
  have hge : ¬ changePercentageOf cachedClustersTen currentIdsReplaced < 1 / 5 := by
    rw [changePercentage_scenario]
    norm_num
  have hcur : areClustersCurrent cachedClustersTen currentIdsReplaced = false := by
    rw [areClustersCurrent, if_neg (by decide :
      ¬ max (clusterCardIdsOf cachedClustersTen).length currentIdsReplaced.length = 0)]
    rw [decide_eq_false_iff_not]
    exact hge
  refine ⟨changePercentage_scenario, hge, hcur, ?_⟩
  show (if now - ts > CACHE_EXPIRY_TIME ∨
      areClustersCurrent cachedClustersTen currentIdsReplaced = false then
      (some cachedClustersTen, true) else (some cachedClustersTen, false)) =
    (some cachedClustersTen, true)
  rw [if_pos (Or.inr hcur)]

end KanbanAI
